import Mathlib

/-
Verification development for the storehaus data-access layer.

The definitions below are shallow embeddings of the Rust sources:
  * store_object/src/query_builder/filter.rs, sql_generation.rs, update.rs
  * store_object/src/generic_store/store_object.rs, core.rs, soft_deletable.rs
  * store_object/src/id_type.rs
  * cache_system/src/manager.rs
  * signal_system/src/manager.rs

SQL text produced with format! in the source is represented as a list of
fragments (literal text or a positional placeholder); renderFrags recovers
the exact string the source builds.  Asynchronous calls to the database,
the cache client and signal callbacks are represented by explicit oracles
(Except-valued arguments) or by explicit state, and mutable state is
threaded through return values.
-/

deriving instance DecidableEq for Except

namespace Storehaus

/-- JSON values used as filter operands and bound parameters
(serde_json::Value; numbers collapsed to Int since only identity of the
value matters to the query builder). -/
inductive Json where
  | null : Json
  | bool (b : Bool) : Json
  | num (n : Int) : Json
  | str (s : String) : Json
  | arr (xs : List Json) : Json

mutual

/-- Decidable equality for Json (hand-written because the inductive nests
List Json). -/
def Json.decEq : (a b : Json) → Decidable (a = b)
  | .null, .null => isTrue rfl
  | .bool a, .bool b =>
    if h : a = b then isTrue (by rw [h]) else isFalse fun he => h (Json.bool.inj he)
  | .num a, .num b =>
    if h : a = b then isTrue (by rw [h]) else isFalse fun he => h (Json.num.inj he)
  | .str a, .str b =>
    if h : a = b then isTrue (by rw [h]) else isFalse fun he => h (Json.str.inj he)
  | .arr a, .arr b =>
    match Json.decEqList a b with
    | isTrue h => isTrue (by rw [h])
    | isFalse h => isFalse fun he => h (Json.arr.inj he)
  | .null, .bool _ => isFalse nofun
  | .null, .num _ => isFalse nofun
  | .null, .str _ => isFalse nofun
  | .null, .arr _ => isFalse nofun
  | .bool _, .null => isFalse nofun
  | .bool _, .num _ => isFalse nofun
  | .bool _, .str _ => isFalse nofun
  | .bool _, .arr _ => isFalse nofun
  | .num _, .null => isFalse nofun
  | .num _, .bool _ => isFalse nofun
  | .num _, .str _ => isFalse nofun
  | .num _, .arr _ => isFalse nofun
  | .str _, .null => isFalse nofun
  | .str _, .bool _ => isFalse nofun
  | .str _, .num _ => isFalse nofun
  | .str _, .arr _ => isFalse nofun
  | .arr _, .null => isFalse nofun
  | .arr _, .bool _ => isFalse nofun
  | .arr _, .num _ => isFalse nofun
  | .arr _, .str _ => isFalse nofun

/-- Decidable equality for lists of Json. -/
def Json.decEqList : (a b : List Json) → Decidable (a = b)
  | [], [] => isTrue rfl
  | [], _ :: _ => isFalse nofun
  | _ :: _, [] => isFalse nofun
  | x :: xs, y :: ys =>
    match Json.decEq x y, Json.decEqList xs ys with
    | isTrue h1, isTrue h2 => isTrue (by rw [h1, h2])
    | isFalse h1, _ => isFalse fun he => h1 (List.cons.inj he).1
    | _, isFalse h2 => isFalse fun he => h2 (List.cons.inj he).2

end

instance : DecidableEq Json := Json.decEq

/-- Query condition operators (query_builder/filter.rs, QueryOperator). -/
inductive QueryOperator where
  | eq | ne | gt | gte | lt | lte | like | ilike
  | inOp | notInOp | isNull | isNotNull | arrayOverlap
  deriving DecidableEq

/-- Single condition in a WHERE clause (query_builder/filter.rs, QueryCondition). -/
structure QueryCondition where
  field : String
  operator : QueryOperator
  value : Option Json
  deriving DecidableEq

/-- Logical operators for combining conditions (query_builder/filter.rs). -/
inductive LogicalOperator where
  | and | or
  deriving DecidableEq

/-- Query filter tree (query_builder/filter.rs, QueryFilter). -/
inductive QueryFilter where
  | condition (c : QueryCondition) : QueryFilter
  | group (operator : LogicalOperator) (filters : List QueryFilter) : QueryFilter

mutual

/-- Decidable equality for QueryFilter (hand-written because the inductive
nests List QueryFilter). -/
def QueryFilter.decEq : (a b : QueryFilter) → Decidable (a = b)
  | .condition c1, .condition c2 =>
    if h : c1 = c2 then isTrue (by rw [h]) else isFalse fun he => h (QueryFilter.condition.inj he)
  | .group o1 fs1, .group o2 fs2 =>
    if ho : o1 = o2 then
      match QueryFilter.decEqList fs1 fs2 with
      | isTrue h => isTrue (by rw [ho, h])
      | isFalse h => isFalse fun he => h (QueryFilter.group.inj he).2
    else isFalse fun he => ho (QueryFilter.group.inj he).1
  | .condition _, .group _ _ => isFalse nofun
  | .group _ _, .condition _ => isFalse nofun

/-- Decidable equality for lists of QueryFilter. -/
def QueryFilter.decEqList : (a b : List QueryFilter) → Decidable (a = b)
  | [], [] => isTrue rfl
  | [], _ :: _ => isFalse nofun
  | _ :: _, [] => isFalse nofun
  | x :: xs, y :: ys =>
    match QueryFilter.decEq x y, QueryFilter.decEqList xs ys with
    | isTrue h1, isTrue h2 => isTrue (by rw [h1, h2])
    | isFalse h1, _ => isFalse fun he => h1 (List.cons.inj he).1
    | _, isFalse h2 => isFalse fun he => h2 (List.cons.inj he).2

end

instance : DecidableEq QueryFilter := QueryFilter.decEq

/-- A fragment of generated SQL text: literal text, or the positional
placeholder written as dollar-number by the source's format! calls. -/
inductive Frag where
  | lit (s : String) : Frag
  | param (n : Nat) : Frag
  deriving DecidableEq

/-- Render one fragment to the string the Rust code produces. -/
def renderFrag : Frag → String
  | .lit s => s
  | .param n => "$" ++ toString n

/-- Render a fragment list to the concrete SQL string. -/
def renderFrags : List Frag → String
  | [] => ""
  | f :: fs => renderFrag f ++ renderFrags fs

/-- The positional placeholder numbers appearing in a fragment list,
left to right. -/
def fragParams (fs : List Frag) : List Nat :=
  fs.filterMap fun f => match f with | .param n => some n | .lit _ => none

/-- Join a list of fragment lists with a separator fragment
(Vec::join in the source). -/
def joinFrags (sep : Frag) : List (List Frag) → List Frag
  | [] => []
  | [x] => x
  | x :: y :: xs => x ++ sep :: joinFrags sep (y :: xs)

namespace SqlGenerator

/-- The separator string chosen for a group operator
(sql_generation.rs lines 47-50). -/
def LogicalOperator.toSep : LogicalOperator → String
  | .and => " AND "
  | .or => " OR "

/-- Placeholder fragments produced for an IN/NOT IN/array-overlap list of
n values starting at the current parameter counter (sql_generation.rs:
the map over array_values that formats one placeholder per element and
bumps the counter). -/
def placeholderPieces (counter n : Nat) : List (List Frag) :=
  (List.range n).map fun i => [Frag.param (counter + i)]

/-- SqlGenerator::build_single_condition_sql (sql_generation.rs lines 63-217).
The &mut Vec of values and the &mut param_counter are threaded explicitly:
the result is (sql fragments, new values, new counter). -/
def build_single_condition_sql (c : QueryCondition) (values : List Json)
    (counter : Nat) : List Frag × List Json × Nat :=
  match c.operator with
  | .eq =>
    match c.value with
    | some v => ([.lit c.field, .lit " = ", .param counter], values ++ [v], counter + 1)
    | none => ([.lit c.field, .lit " IS NULL"], values, counter)
  | .ne =>
    match c.value with
    | some v => ([.lit c.field, .lit " != ", .param counter], values ++ [v], counter + 1)
    | none => ([.lit c.field, .lit " IS NOT NULL"], values, counter)
  | .gt =>
    match c.value with
    | some v => ([.lit c.field, .lit " > ", .param counter], values ++ [v], counter + 1)
    | none => ([.lit "1=0"], values, counter)
  | .gte =>
    match c.value with
    | some v => ([.lit c.field, .lit " >= ", .param counter], values ++ [v], counter + 1)
    | none => ([.lit "1=0"], values, counter)
  | .lt =>
    match c.value with
    | some v => ([.lit c.field, .lit " < ", .param counter], values ++ [v], counter + 1)
    | none => ([.lit "1=0"], values, counter)
  | .lte =>
    match c.value with
    | some v => ([.lit c.field, .lit " <= ", .param counter], values ++ [v], counter + 1)
    | none => ([.lit "1=0"], values, counter)
  | .like =>
    match c.value with
    | some v => ([.lit c.field, .lit " LIKE ", .param counter], values ++ [v], counter + 1)
    | none => ([.lit "1=0"], values, counter)
  | .ilike =>
    match c.value with
    | some v => ([.lit c.field, .lit " ILIKE ", .param counter], values ++ [v], counter + 1)
    | none => ([.lit "1=0"], values, counter)
  | .inOp =>
    match c.value with
    | some (.arr xs) =>
      if xs.isEmpty then ([.lit "1=0"], values, counter)
      else
        ([.lit c.field, .lit " IN ("] ++ joinFrags (.lit ", ") (placeholderPieces counter xs.length)
            ++ [.lit ")"],
          values ++ xs, counter + xs.length)
    | _ => ([.lit "1=0"], values, counter)
  | .notInOp =>
    match c.value with
    | some (.arr xs) =>
      if xs.isEmpty then ([.lit "1=1"], values, counter)
      else
        ([.lit c.field, .lit " NOT IN ("] ++ joinFrags (.lit ", ") (placeholderPieces counter xs.length)
            ++ [.lit ")"],
          values ++ xs, counter + xs.length)
    | _ => ([.lit "1=1"], values, counter)
  | .isNull => ([.lit c.field, .lit " IS NULL"], values, counter)
  | .isNotNull => ([.lit c.field, .lit " IS NOT NULL"], values, counter)
  | .arrayOverlap =>
    match c.value with
    | some (.arr xs) =>
      if xs.isEmpty then ([.lit "1=0"], values, counter)
      else
        ([.lit c.field, .lit " && ARRAY["] ++ joinFrags (.lit ", ") (placeholderPieces counter xs.length)
            ++ [.lit "]"],
          values ++ xs, counter + xs.length)
    | _ => ([.lit "1=0"], values, counter)

mutual

/-- SqlGenerator::build_condition_sql (sql_generation.rs lines 37-61). -/
def build_condition_sql : QueryFilter → List Json → Nat → List Frag × List Json × Nat
  | .condition c, values, counter => build_single_condition_sql c values counter
  | .group operator filters, values, counter =>
    let r := build_condition_list filters values counter
    (Frag.lit "(" :: joinFrags (.lit (LogicalOperator.toSep operator)) r.1 ++ [.lit ")"],
      r.2.1, r.2.2)

/-- The map over a list of filters that renders each one in turn while
threading the shared values vector and parameter counter (the
conditions.iter().map(...) calls in build_where_clause and in the Group
arm of build_condition_sql). -/
def build_condition_list : List QueryFilter → List Json → Nat → List (List Frag) × List Json × Nat
  | [], values, counter => ([], values, counter)
  | f :: fs, values, counter =>
    let r1 := build_condition_sql f values counter
    let r2 := build_condition_list fs r1.2.1 r1.2.2
    (r1.1 :: r2.1, r2.2.1, r2.2.2)

end

/-- SqlGenerator::build_where_clause (sql_generation.rs lines 16-35). -/
def build_where_clause (conditions : List QueryFilter) : List Frag × List Json :=
  if conditions.isEmpty then ([], [])
  else
    let r := build_condition_list conditions [] 1
    let conditionsSql := joinFrags (.lit " AND ") r.1
    if renderFrags conditionsSql = "" then ([], r.2.1)
    else (Frag.lit "WHERE " :: conditionsSql, r.2.1)

end SqlGenerator

mutual

/-- Spec-side description, following the claim's words: the values a leaf
appends while it is rendered, collected depth-first through nested AND/OR
groups.  A comparison leaf carrying a value contributes that one value, a
null-check leaf contributes nothing, an IN/NOT-IN/array-overlap leaf with k
elements contributes its k elements in element order (and a malformed list
leaf, or a comparison leaf missing its value, contributes nothing). -/
def specLeafValues : QueryFilter → List Json
  | .condition c =>
    match c.operator, c.value with
    | .isNull, _ => []
    | .isNotNull, _ => []
    | .inOp, some (.arr xs) => xs
    | .inOp, _ => []
    | .notInOp, some (.arr xs) => xs
    | .notInOp, _ => []
    | .arrayOverlap, some (.arr xs) => xs
    | .arrayOverlap, _ => []
    | _, some v => [v]
    | _, none => []
  | .group _ fs => specLeafValuesList fs

/-- Depth-first concatenation of specLeafValues over a list of filter trees. -/
def specLeafValuesList : List QueryFilter → List Json
  | [] => []
  | f :: fs => specLeafValues f ++ specLeafValuesList fs

end

section FragLemmas

theorem fragParams_append (a b : List Frag) :
    fragParams (a ++ b) = fragParams a ++ fragParams b :=
  List.filterMap_append a b _

theorem renderFrags_append (a b : List Frag) :
    renderFrags (a ++ b) = renderFrags a ++ renderFrags b := by
  induction a with
  | nil => simp [renderFrags]
  | cons f fs ih => simp [renderFrags, ih, String.append_assoc]

theorem str_append_ne_empty_left {s : String} (t : String) (h : s ≠ "") :
    s ++ t ≠ "" := by
  intro he
  apply h
  have hdata : s.data ++ t.data = [] := by
    have hc := congrArg String.data he
    simpa using hc
  exact String.ext (List.append_eq_nil.mp hdata).1

theorem str_append_ne_empty_right (s : String) {t : String} (h : t ≠ "") :
    s ++ t ≠ "" := by
  intro he
  apply h
  have hdata : s.data ++ t.data = [] := by
    have hc := congrArg String.data he
    simpa using hc
  exact String.ext (List.append_eq_nil.mp hdata).2

theorem renderFrags_ne_empty_of_mem {g : Frag} {fs : List Frag} (hm : g ∈ fs)
    (hg : renderFrag g ≠ "") : renderFrags fs ≠ "" := by
  induction fs with
  | nil => cases hm
  | cons f rest ih =>
    rcases List.mem_cons.mp hm with h | h
    · subst h
      exact str_append_ne_empty_left _ hg
    · exact str_append_ne_empty_right _ (ih h)

theorem fragParams_joinFrags (sep : String) (pieces : List (List Frag)) :
    fragParams (joinFrags (.lit sep) pieces) = (pieces.map fragParams).flatten := by
  induction pieces with
  | nil => simp [joinFrags, fragParams]
  | cons x xs ih =>
    cases xs with
    | nil => simp [joinFrags, fragParams]
    | cons y ys =>
      simp only [joinFrags, List.map_cons, List.flatten_cons]
      rw [fragParams_append]
      simp only [List.map_cons, List.flatten_cons] at ih
      have hsep : fragParams (Frag.lit sep :: joinFrags (Frag.lit sep) (y :: ys)) =
          fragParams (joinFrags (Frag.lit sep) (y :: ys)) := by
        simp [fragParams, List.filterMap_cons]
      rw [hsep, ih]

theorem renderFrags_joinFrags_ne_empty (sep : String) (pieces : List (List Frag))
    (hne : pieces ≠ []) (hall : ∀ p ∈ pieces, renderFrags p ≠ "") :
    renderFrags (joinFrags (.lit sep) pieces) ≠ "" := by
  cases pieces with
  | nil => exact absurd rfl hne
  | cons x xs =>
    cases xs with
    | nil =>
      simpa [joinFrags] using hall x (by simp)
    | cons y ys =>
      simp only [joinFrags]
      rw [renderFrags_append]
      exact str_append_ne_empty_left _ (hall x (by simp))

theorem fragParams_placeholderPieces (counter n : Nat) :
    ((SqlGenerator.placeholderPieces counter n).map fragParams).flatten =
      List.range' counter n := by
  simp only [SqlGenerator.placeholderPieces, List.map_map]
  have h1 : (fragParams ∘ fun i => [Frag.param (counter + i)]) = fun i => [counter + i] := by
    funext i
    simp [fragParams, List.filterMap]
  rw [h1]
  rw [List.range'_eq_map_range]
  induction n with
  | zero => simp
  | succ m ih => simp [List.range_succ, ih]

theorem renderFrags_placeholderPieces_ne_empty (counter n : Nat) :
    ∀ p ∈ SqlGenerator.placeholderPieces counter n, renderFrags p ≠ "" := by
  intro p hp
  simp only [SqlGenerator.placeholderPieces, List.mem_map] at hp
  obtain ⟨i, _, rfl⟩ := hp
  simp only [renderFrags, renderFrag]
  intro he
  have hc := congrArg String.data he
  simp at hc

end FragLemmas

section WhereClauseInvariant

open SqlGenerator

/-- The invariant tying one rendering step to the spec-side leaf values:
the values vector grows by exactly the leaf values, the parameter counter
advances by their number, the placeholders emitted are the consecutive
numbers starting at the incoming counter, and the rendered text is
never empty. -/
def CondInv (r : List Frag × List Json × Nat) (values : List Json) (counter : Nat)
    (spec : List Json) : Prop :=
  r.2.1 = values ++ spec ∧ r.2.2 = counter + spec.length ∧
  fragParams r.1 = List.range' counter spec.length ∧ renderFrags r.1 ≠ ""

theorem condInv_simple_some (field S : String) (hS : S ≠ "") (v : Json)
    (values : List Json) (counter : Nat) :
    CondInv ([.lit field, .lit S, .param counter], values ++ [v], counter + 1)
      values counter [v] := by
  refine ⟨rfl, rfl, ?_, ?_⟩
  · simp [fragParams, List.filterMap, List.range'_one]
  · exact renderFrags_ne_empty_of_mem (g := .lit S) (by simp) (by simpa [renderFrag] using hS)

theorem condInv_noparam (frs : List Frag) (g : Frag) (hm : g ∈ frs)
    (hg : renderFrag g ≠ "") (hfp : fragParams frs = [])
    (values : List Json) (counter : Nat) :
    CondInv (frs, values, counter) values counter [] := by
  exact ⟨by simp, by simp, by simpa using hfp, renderFrags_ne_empty_of_mem hm hg⟩

theorem condInv_list_values (field pre post : String) (hpre : pre ≠ "")
    (xs : List Json) (values : List Json) (counter : Nat) :
    CondInv ([.lit field, .lit pre] ++ joinFrags (.lit ", ") (placeholderPieces counter xs.length)
        ++ [.lit post], values ++ xs, counter + xs.length) values counter xs := by
  refine ⟨rfl, rfl, ?_, ?_⟩
  · rw [fragParams_append, fragParams_append]
    have h2 : fragParams [Frag.lit field, Frag.lit pre] = [] := by
      simp [fragParams, List.filterMap]
    have h3 : fragParams [Frag.lit post] = [] := by
      simp [fragParams, List.filterMap]
    rw [h2, h3, fragParams_joinFrags, fragParams_placeholderPieces]
    simp
  · exact renderFrags_ne_empty_of_mem (g := .lit pre) (by simp)
      (by simpa [renderFrag] using hpre)

theorem build_single_condition_sql_inv (c : QueryCondition) (values : List Json)
    (counter : Nat) :
    CondInv (build_single_condition_sql c values counter) values counter
      (specLeafValues (.condition c)) := by
  obtain ⟨field, op, value⟩ := c
  cases op with
  | eq =>
    cases value with
    | some v =>
      simpa [build_single_condition_sql, specLeafValues] using
        condInv_simple_some field " = " (by decide) v values counter
    | none =>
      simpa [build_single_condition_sql, specLeafValues] using
        condInv_noparam [Frag.lit field, Frag.lit " IS NULL"] (.lit " IS NULL")
          (by simp) (by decide) (by simp [fragParams, List.filterMap]) values counter
  | ne =>
    cases value with
    | some v =>
      simpa [build_single_condition_sql, specLeafValues] using
        condInv_simple_some field " != " (by decide) v values counter
    | none =>
      simpa [build_single_condition_sql, specLeafValues] using
        condInv_noparam [Frag.lit field, Frag.lit " IS NOT NULL"] (.lit " IS NOT NULL")
          (by simp) (by decide) (by simp [fragParams, List.filterMap]) values counter
  | gt =>
    cases value with
    | some v =>
      simpa [build_single_condition_sql, specLeafValues] using
        condInv_simple_some field " > " (by decide) v values counter
    | none =>
      simpa [build_single_condition_sql, specLeafValues] using
        condInv_noparam [Frag.lit "1=0"] (.lit "1=0")
          (by simp) (by decide) (by simp [fragParams, List.filterMap]) values counter
  | gte =>
    cases value with
    | some v =>
      simpa [build_single_condition_sql, specLeafValues] using
        condInv_simple_some field " >= " (by decide) v values counter
    | none =>
      simpa [build_single_condition_sql, specLeafValues] using
        condInv_noparam [Frag.lit "1=0"] (.lit "1=0")
          (by simp) (by decide) (by simp [fragParams, List.filterMap]) values counter
  | lt =>
    cases value with
    | some v =>
      simpa [build_single_condition_sql, specLeafValues] using
        condInv_simple_some field " < " (by decide) v values counter
    | none =>
      simpa [build_single_condition_sql, specLeafValues] using
        condInv_noparam [Frag.lit "1=0"] (.lit "1=0")
          (by simp) (by decide) (by simp [fragParams, List.filterMap]) values counter
  | lte =>
    cases value with
    | some v =>
      simpa [build_single_condition_sql, specLeafValues] using
        condInv_simple_some field " <= " (by decide) v values counter
    | none =>
      simpa [build_single_condition_sql, specLeafValues] using
        condInv_noparam [Frag.lit "1=0"] (.lit "1=0")
          (by simp) (by decide) (by simp [fragParams, List.filterMap]) values counter
  | like =>
    cases value with
    | some v =>
      simpa [build_single_condition_sql, specLeafValues] using
        condInv_simple_some field " LIKE " (by decide) v values counter
    | none =>
      simpa [build_single_condition_sql, specLeafValues] using
        condInv_noparam [Frag.lit "1=0"] (.lit "1=0")
          (by simp) (by decide) (by simp [fragParams, List.filterMap]) values counter
  | ilike =>
    cases value with
    | some v =>
      simpa [build_single_condition_sql, specLeafValues] using
        condInv_simple_some field " ILIKE " (by decide) v values counter
    | none =>
      simpa [build_single_condition_sql, specLeafValues] using
        condInv_noparam [Frag.lit "1=0"] (.lit "1=0")
          (by simp) (by decide) (by simp [fragParams, List.filterMap]) values counter
  | inOp =>
    match value with
    | some (.arr xs) =>
      by_cases hxs : xs.isEmpty
      · have hnil : xs = [] := by simpa using hxs
        subst hnil
        simpa [build_single_condition_sql, specLeafValues] using
          condInv_noparam [Frag.lit "1=0"] (.lit "1=0")
            (by simp) (by decide) (by simp [fragParams, List.filterMap]) values counter
      · simpa [build_single_condition_sql, specLeafValues, hxs] using
          condInv_list_values field " IN (" ")" (by decide) xs values counter
    | some .null =>
      simpa [build_single_condition_sql, specLeafValues] using
        condInv_noparam [Frag.lit "1=0"] (.lit "1=0")
          (by simp) (by decide) (by simp [fragParams, List.filterMap]) values counter
    | some (.bool b) =>
      simpa [build_single_condition_sql, specLeafValues] using
        condInv_noparam [Frag.lit "1=0"] (.lit "1=0")
          (by simp) (by decide) (by simp [fragParams, List.filterMap]) values counter
    | some (.num n) =>
      simpa [build_single_condition_sql, specLeafValues] using
        condInv_noparam [Frag.lit "1=0"] (.lit "1=0")
          (by simp) (by decide) (by simp [fragParams, List.filterMap]) values counter
    | some (.str s) =>
      simpa [build_single_condition_sql, specLeafValues] using
        condInv_noparam [Frag.lit "1=0"] (.lit "1=0")
          (by simp) (by decide) (by simp [fragParams, List.filterMap]) values counter
    | none =>
      simpa [build_single_condition_sql, specLeafValues] using
        condInv_noparam [Frag.lit "1=0"] (.lit "1=0")
          (by simp) (by decide) (by simp [fragParams, List.filterMap]) values counter
  | notInOp =>
    match value with
    | some (.arr xs) =>
      by_cases hxs : xs.isEmpty
      · have hnil : xs = [] := by simpa using hxs
        subst hnil
        simpa [build_single_condition_sql, specLeafValues] using
          condInv_noparam [Frag.lit "1=1"] (.lit "1=1")
            (by simp) (by decide) (by simp [fragParams, List.filterMap]) values counter
      · simpa [build_single_condition_sql, specLeafValues, hxs] using
          condInv_list_values field " NOT IN (" ")" (by decide) xs values counter
    | some .null =>
      simpa [build_single_condition_sql, specLeafValues] using
        condInv_noparam [Frag.lit "1=1"] (.lit "1=1")
          (by simp) (by decide) (by simp [fragParams, List.filterMap]) values counter
    | some (.bool b) =>
      simpa [build_single_condition_sql, specLeafValues] using
        condInv_noparam [Frag.lit "1=1"] (.lit "1=1")
          (by simp) (by decide) (by simp [fragParams, List.filterMap]) values counter
    | some (.num n) =>
      simpa [build_single_condition_sql, specLeafValues] using
        condInv_noparam [Frag.lit "1=1"] (.lit "1=1")
          (by simp) (by decide) (by simp [fragParams, List.filterMap]) values counter
    | some (.str s) =>
      simpa [build_single_condition_sql, specLeafValues] using
        condInv_noparam [Frag.lit "1=1"] (.lit "1=1")
          (by simp) (by decide) (by simp [fragParams, List.filterMap]) values counter
    | none =>
      simpa [build_single_condition_sql, specLeafValues] using
        condInv_noparam [Frag.lit "1=1"] (.lit "1=1")
          (by simp) (by decide) (by simp [fragParams, List.filterMap]) values counter
  | isNull =>
    simpa [build_single_condition_sql, specLeafValues] using
      condInv_noparam [Frag.lit field, Frag.lit " IS NULL"] (.lit " IS NULL")
        (by simp) (by decide) (by simp [fragParams, List.filterMap]) values counter
  | isNotNull =>
    simpa [build_single_condition_sql, specLeafValues] using
      condInv_noparam [Frag.lit field, Frag.lit " IS NOT NULL"] (.lit " IS NOT NULL")
        (by simp) (by decide) (by simp [fragParams, List.filterMap]) values counter
  | arrayOverlap =>
    match value with
    | some (.arr xs) =>
      by_cases hxs : xs.isEmpty
      · have hnil : xs = [] := by simpa using hxs
        subst hnil
        simpa [build_single_condition_sql, specLeafValues] using
          condInv_noparam [Frag.lit "1=0"] (.lit "1=0")
            (by simp) (by decide) (by simp [fragParams, List.filterMap]) values counter
      · simpa [build_single_condition_sql, specLeafValues, hxs] using
          condInv_list_values field " && ARRAY[" "]" (by decide) xs values counter
    | some .null =>
      simpa [build_single_condition_sql, specLeafValues] using
        condInv_noparam [Frag.lit "1=0"] (.lit "1=0")
          (by simp) (by decide) (by simp [fragParams, List.filterMap]) values counter
    | some (.bool b) =>
      simpa [build_single_condition_sql, specLeafValues] using
        condInv_noparam [Frag.lit "1=0"] (.lit "1=0")
          (by simp) (by decide) (by simp [fragParams, List.filterMap]) values counter
    | some (.num n) =>
      simpa [build_single_condition_sql, specLeafValues] using
        condInv_noparam [Frag.lit "1=0"] (.lit "1=0")
          (by simp) (by decide) (by simp [fragParams, List.filterMap]) values counter
    | some (.str s) =>
      simpa [build_single_condition_sql, specLeafValues] using
        condInv_noparam [Frag.lit "1=0"] (.lit "1=0")
          (by simp) (by decide) (by simp [fragParams, List.filterMap]) values counter
    | none =>
      simpa [build_single_condition_sql, specLeafValues] using
        condInv_noparam [Frag.lit "1=0"] (.lit "1=0")
          (by simp) (by decide) (by simp [fragParams, List.filterMap]) values counter

mutual

theorem build_condition_sql_inv (f : QueryFilter) (values : List Json) (counter : Nat) :
    CondInv (build_condition_sql f values counter) values counter (specLeafValues f) := by
  cases f with
  | condition c => exact build_single_condition_sql_inv c values counter
  | group operator filters =>
    have hl := build_condition_list_inv filters values counter
    obtain ⟨h1, h2, h3, h4, _⟩ := hl
    refine ⟨?_, ?_, ?_, ?_⟩
    · simpa [build_condition_sql, specLeafValues] using h1
    · simpa [build_condition_sql, specLeafValues] using h2
    · simp only [build_condition_sql, specLeafValues]
      have hcons : fragParams (Frag.lit "(" ::
          joinFrags (Frag.lit (LogicalOperator.toSep operator))
            (build_condition_list filters values counter).1 ++ [Frag.lit ")"]) =
          fragParams (joinFrags (Frag.lit (LogicalOperator.toSep operator))
            (build_condition_list filters values counter).1) := by
        rw [show (Frag.lit "(" ::
            joinFrags (Frag.lit (LogicalOperator.toSep operator))
              (build_condition_list filters values counter).1 ++ [Frag.lit ")"]) =
            ([Frag.lit "("] ++
              joinFrags (Frag.lit (LogicalOperator.toSep operator))
                (build_condition_list filters values counter).1) ++ [Frag.lit ")"] from by simp]
        rw [fragParams_append, fragParams_append]
        simp [fragParams, List.filterMap]
      rw [hcons, fragParams_joinFrags, h3]
    · simp only [build_condition_sql]
      exact renderFrags_ne_empty_of_mem (g := .lit "(") (by simp) (by decide)

theorem build_condition_list_inv (fs : List QueryFilter) (values : List Json) (counter : Nat) :
    (build_condition_list fs values counter).2.1 = values ++ specLeafValuesList fs ∧
    (build_condition_list fs values counter).2.2 =
      counter + (specLeafValuesList fs).length ∧
    ((build_condition_list fs values counter).1.map fragParams).flatten =
      List.range' counter (specLeafValuesList fs).length ∧
    (∀ p ∈ (build_condition_list fs values counter).1, renderFrags p ≠ "") ∧
    (build_condition_list fs values counter).1.length = fs.length := by
  cases fs with
  | nil =>
    refine ⟨by simp [build_condition_list, specLeafValuesList], ?_, ?_, ?_, ?_⟩ <;>
      simp [build_condition_list, specLeafValuesList]
  | cons f rest =>
    have hf := build_condition_sql_inv f values counter
    obtain ⟨hf1, hf2, hf3, hf4⟩ := hf
    have hr := build_condition_list_inv rest
      (build_condition_sql f values counter).2.1
      (build_condition_sql f values counter).2.2
    obtain ⟨hr1, hr2, hr3, hr4, hr5⟩ := hr
    refine ⟨?_, ?_, ?_, ?_, ?_⟩
    · simp only [build_condition_list, specLeafValuesList]
      rw [hr1, hf1, List.append_assoc]
    · simp only [build_condition_list, specLeafValuesList]
      rw [hr2, hf2, List.length_append]
      omega
    · simp only [build_condition_list, specLeafValuesList, List.map_cons, List.flatten_cons]
      rw [hr3, hf3, hf2, List.length_append]
      simp [Nat.add_comm]
    · intro p hp
      simp only [build_condition_list, List.mem_cons] at hp
      rcases hp with h | h
      · subst h; exact hf4
      · exact hr4 p h
    · simp only [build_condition_list, List.length_cons]
      rw [hr5]

end

/-- C1: for every list of QueryFilter trees, build_where_clause returns SQL
whose positional placeholders are exactly the consecutive numbers 1..N, left
to right, where N is the length of the returned parameter list; and the
parameter list is exactly the depth-first concatenation of the values each
leaf appends while it is rendered (an IN/NOT-IN/array-overlap leaf with k
elements contributing k consecutive placeholders and its k values in element
order, as captured by specLeafValues). -/
theorem build_where_clause_params_placeholders (conditions : List QueryFilter) :
    fragParams (SqlGenerator.build_where_clause conditions).1 =
      List.range' 1 (SqlGenerator.build_where_clause conditions).2.length ∧
    (SqlGenerator.build_where_clause conditions).2 = specLeafValuesList conditions := by
  by_cases hc : conditions.isEmpty
  · have hnil : conditions = [] := by simpa using hc
    subst hnil
    simp [SqlGenerator.build_where_clause, fragParams, specLeafValuesList]
  · have hl := build_condition_list_inv conditions [] 1
    obtain ⟨h1, _, h3, h4, h5⟩ := hl
    have hpieces : (build_condition_list conditions [] 1).1 ≠ [] := by
      intro hz
      rw [hz] at h5
      cases conditions with
      | nil => simp at hc
      | cons a b => simp at h5
    have hjoin : renderFrags (joinFrags (Frag.lit " AND ")
        (build_condition_list conditions [] 1).1) ≠ "" :=
      renderFrags_joinFrags_ne_empty " AND " _ hpieces h4
    simp only [SqlGenerator.build_where_clause, hc, Bool.false_eq_true, if_false,
      if_neg hjoin]
    constructor
    · have hcons : fragParams (Frag.lit "WHERE " :: joinFrags (Frag.lit " AND ")
          (build_condition_list conditions [] 1).1) =
          fragParams (joinFrags (Frag.lit " AND ")
            (build_condition_list conditions [] 1).1) := by
        simp [fragParams, List.filterMap_cons]
      rw [hcons, fragParams_joinFrags, h3, h1]
      simp
    · exact h1.trans (List.nil_append _)

end WhereClauseInvariant

section DegenerateLeaves

open SqlGenerator

/-- C6 counterexample: the claim says every comparison leaf (eq, ne, gt, gte,
lt, lte, like, ilike) whose value is absent renders an always-false
predicate, but an eq leaf with an absent value renders "field IS NULL"
(sql_generation.rs lines 71-80), which is not the always-false literal
"1=0" the other comparison arms produce. -/
theorem eq_leaf_missing_value_renders_is_null :
    renderFrags (build_single_condition_sql ⟨"f", .eq, none⟩ [] 1).1 = "f IS NULL" ∧
    renderFrags (build_single_condition_sql ⟨"f", .eq, none⟩ [] 1).1 ≠ "1=0" ∧
    renderFrags (build_single_condition_sql ⟨"f", .ne, none⟩ [] 1).1 = "f IS NOT NULL" := by
  refine ⟨rfl, by decide, rfl⟩

/-- C6 (amended): for every single-condition leaf, IS NULL and IS NOT NULL
render with no parameter whatever the stored value is; an IN leaf with an
empty list renders the literal always-false predicate "1=0" with no
parameters; a NOT-IN leaf with an empty list renders the literal always-true
predicate "1=1" with no parameters; a gt/gte/lt/lte/like/ilike leaf whose
value is absent renders the always-false "1=0"; and (the correction) an eq
leaf with an absent value renders "field IS NULL" while a ne leaf renders
"field IS NOT NULL", not an always-false predicate. -/
theorem build_single_condition_sql_degenerate (field : String) (values : List Json)
    (counter : Nat) :
    (∀ value, build_single_condition_sql ⟨field, .isNull, value⟩ values counter =
      ([.lit field, .lit " IS NULL"], values, counter)) ∧
    (∀ value, build_single_condition_sql ⟨field, .isNotNull, value⟩ values counter =
      ([.lit field, .lit " IS NOT NULL"], values, counter)) ∧
    build_single_condition_sql ⟨field, .inOp, some (.arr [])⟩ values counter =
      ([.lit "1=0"], values, counter) ∧
    build_single_condition_sql ⟨field, .notInOp, some (.arr [])⟩ values counter =
      ([.lit "1=1"], values, counter) ∧
    build_single_condition_sql ⟨field, .gt, none⟩ values counter =
      ([.lit "1=0"], values, counter) ∧
    build_single_condition_sql ⟨field, .gte, none⟩ values counter =
      ([.lit "1=0"], values, counter) ∧
    build_single_condition_sql ⟨field, .lt, none⟩ values counter =
      ([.lit "1=0"], values, counter) ∧
    build_single_condition_sql ⟨field, .lte, none⟩ values counter =
      ([.lit "1=0"], values, counter) ∧
    build_single_condition_sql ⟨field, .like, none⟩ values counter =
      ([.lit "1=0"], values, counter) ∧
    build_single_condition_sql ⟨field, .ilike, none⟩ values counter =
      ([.lit "1=0"], values, counter) ∧
    build_single_condition_sql ⟨field, .eq, none⟩ values counter =
      ([.lit field, .lit " IS NULL"], values, counter) ∧
    build_single_condition_sql ⟨field, .ne, none⟩ values counter =
      ([.lit field, .lit " IS NOT NULL"], values, counter) := by
  exact ⟨fun _ => rfl, fun _ => rfl, rfl, rfl, rfl, rfl, rfl, rfl, rfl, rfl, rfl, rfl⟩

end DegenerateLeaves

/-- Update operation on one field (query_builder/update.rs, UpdateOperation). -/
inductive UpdateOperation where
  | set (v : Json)
  | increment (v : Json)
  | decrement (v : Json)
  | multiply (v : Json)
  | divide (v : Json)
  deriving DecidableEq

/-- UpdateOperation::to_sql (update.rs lines 27-45). -/
def UpdateOperation.to_sql (op : UpdateOperation) (field_name : String)
    (param_number : Nat) : String :=
  match op with
  | .set _ => field_name ++ " = $" ++ toString param_number
  | .increment _ => field_name ++ " = " ++ field_name ++ " + $" ++ toString param_number
  | .decrement _ => field_name ++ " = " ++ field_name ++ " - $" ++ toString param_number
  | .multiply _ => field_name ++ " = " ++ field_name ++ " * $" ++ toString param_number
  | .divide _ => field_name ++ " = " ++ field_name ++ " / $" ++ toString param_number

/-- UpdateOperation::value (update.rs lines 48-56). -/
def UpdateOperation.value : UpdateOperation → Json
  | .set v => v
  | .increment v => v
  | .decrement v => v
  | .multiply v => v
  | .divide v => v

/-- The contents of UpdateSet.operations (update.rs lines 60-63): a HashMap
from field name to operation, modeled as an association list in the map's
arbitrary iteration order.  The HashMap guarantees the keys are distinct. -/
abbrev UpdateOps := List (String × UpdateOperation)

/-- Lexicographic less-or-equal on character lists: the model of Rust's Ord
for str (byte-wise comparison, which on UTF-8 agrees with codepoint order). -/
def strLeChars : List Char → List Char → Bool
  | [], _ => true
  | _ :: _, [] => false
  | a :: as, b :: bs => if a = b then strLeChars as bs else decide (a < b)

/-- Rust's a.cmp(b) is not Greater, as a Boolean less-or-equal on strings. -/
def rustStrLe (a b : String) : Bool :=
  strLeChars a.data b.data

theorem strLeChars_total : ∀ as bs : List Char,
    strLeChars as bs = true ∨ strLeChars bs as = true
  | [], _ => Or.inl rfl
  | _ :: _, [] => Or.inr rfl
  | a :: as, b :: bs => by
    by_cases hab : a = b
    · subst hab
      have := strLeChars_total as bs
      rcases this with h | h
      · left; simpa [strLeChars] using h
      · right; simpa [strLeChars] using h
    · rcases lt_or_gt_of_ne hab with hlt | hgt
      · left; simp [strLeChars, hab, hlt]
      · right
        have hba : b < a := hgt
        simp [strLeChars, Ne.symm hab, hba]

theorem strLeChars_trans : ∀ as bs cs : List Char,
    strLeChars as bs = true → strLeChars bs cs = true → strLeChars as cs = true
  | [], _, _, _, _ => rfl
  | _ :: _, [], _, h1, _ => by simp [strLeChars] at h1
  | _ :: _, _ :: _, [], _, h2 => by simp [strLeChars] at h2
  | a :: as, b :: bs, c :: cs, h1, h2 => by
    by_cases hab : a = b <;> by_cases hbc : b = c
    · subst hab; subst hbc
      simp only [strLeChars, if_pos rfl] at h1 h2 ⊢
      exact strLeChars_trans as bs cs h1 h2
    · subst hab
      have hlt : a < c := by
        have := h2
        simpa [strLeChars, hbc] using this
      have hac : a ≠ c := hbc
      simp [strLeChars, hac, hlt]
    · subst hbc
      have hlt : a < b := by simpa [strLeChars, hab] using h1
      simp [strLeChars, hab, hlt]
    · have hlt1 : a < b := by simpa [strLeChars, hab] using h1
      have hlt2 : b < c := by simpa [strLeChars, hbc] using h2
      have hlt : a < c := lt_trans hlt1 hlt2
      simp [strLeChars, ne_of_lt hlt, hlt]

theorem strLeChars_antisymm : ∀ as bs : List Char,
    strLeChars as bs = true → strLeChars bs as = true → as = bs
  | [], [], _, _ => rfl
  | [], _ :: _, _, h2 => by simp [strLeChars] at h2
  | _ :: _, [], h1, _ => by simp [strLeChars] at h1
  | a :: as, b :: bs, h1, h2 => by
    by_cases hab : a = b
    · subst hab
      simp only [strLeChars, if_pos rfl] at h1 h2
      rw [strLeChars_antisymm as bs h1 h2]
    · have hlt1 : a < b := by simpa [strLeChars, hab] using h1
      have hlt2 : b < a := by simpa [strLeChars, Ne.symm hab] using h2
      exact absurd hlt2 (lt_asymm hlt1)

theorem rustStrLe_total (a b : String) : rustStrLe a b = true ∨ rustStrLe b a = true :=
  strLeChars_total a.data b.data

theorem rustStrLe_trans {a b c : String} (h1 : rustStrLe a b = true)
    (h2 : rustStrLe b c = true) : rustStrLe a c = true :=
  strLeChars_trans a.data b.data c.data h1 h2

theorem rustStrLe_antisymm {a b : String} (h1 : rustStrLe a b = true)
    (h2 : rustStrLe b a = true) : a = b :=
  String.ext (strLeChars_antisymm a.data b.data h1 h2)

/-- The sort relation used in GenericStore::update_where
(store_object.rs lines 446-447): compare entries by field name,
ops.sort_by(a.0.cmp(b.0)). -/
def opsLe (a b : String × UpdateOperation) : Prop :=
  rustStrLe a.1 b.1 = true

instance : DecidableRel opsLe := fun a b => by
  unfold opsLe; infer_instance

instance : IsTotal (String × UpdateOperation) opsLe :=
  ⟨fun a b => rustStrLe_total a.1 b.1⟩

instance : IsTrans (String × UpdateOperation) opsLe :=
  ⟨fun _ _ _ h1 h2 => rustStrLe_trans h1 h2⟩

/-- The ops.sort_by(|a, b| a.0.cmp(b.0)) call in update_where
(store_object.rs lines 445-447).  The keys come from a HashMap and are
distinct, so every comparison sort by key produces the same list; a
structurally recursive insertion sort stands in for Rust's merge sort. -/
def sort_by_field (ops : UpdateOps) : UpdateOps :=
  List.insertionSort opsLe ops

/-- The rendering loop over the sorted operations in update_where
(store_object.rs lines 449-454): each operation contributes its SQL
expression with the running parameter number and pushes its bound value;
returns (assignments, values, final param_num). -/
def update_where_set_loop : UpdateOps → Nat → List String × List Json × Nat
  | [], param_num => ([], [], param_num)
  | (field_name, operation) :: rest, param_num =>
    let r := update_where_set_loop rest (param_num + 1)
    (operation.to_sql field_name param_num :: r.1, operation.value :: r.2.1, r.2.2)

/-- The SET-clause construction of update_where in atomic-operations mode
(store_object.rs lines 439-457): sort by field name, render with parameter
numbers starting at 1, join with ", "; returns
(set_clause, update_values, num_update_params). -/
def update_where_set_clause (ops : UpdateOps) : String × List Json × Nat :=
  let sorted := sort_by_field ops
  let r := update_where_set_loop sorted 1
  (String.intercalate ", " r.1, r.2.1, r.2.2 - 1)

/-- One left-to-right scan of Rust's str::replace over character lists:
whenever the (nonempty) pattern matches at the current position, emit the
replacement and skip past the match, otherwise emit one character.  The
fuel argument bounds the recursion; every step consumes at least one
character, so the input length is always enough fuel. -/
def replaceCharsAux (pat rep : List Char) : Nat → List Char → List Char
  | _, [] => []
  | 0, s => s
  | fuel + 1, c :: rest =>
    if pat ≠ [] ∧ (c :: rest).take pat.length = pat then
      rep ++ replaceCharsAux pat rep fuel ((c :: rest).drop pat.length)
    else
      c :: replaceCharsAux pat rep fuel rest

/-- Rust String::replace: replace every non-overlapping occurrence of the
pattern, scanning left to right. -/
def rustReplace (s pat rep : String) : String :=
  ⟨replaceCharsAux pat.data rep.data s.data.length s.data⟩

/-- The WHERE-clause parameter renumbering of update_where (store_object.rs
lines 477-489): when the WHERE clause has parameters, iterate i from
params.len() down to 1 replacing the text dollar-i with
dollar-(num_update_params + i). -/
def adjust_where_clause (where_clause : String) (num_update_params n_params : Nat) :
    String :=
  if n_params = 0 then where_clause
  else
    ((List.range n_params).reverse).foldl
      (fun s i =>
        rustReplace s ("$" ++ toString (i + 1)) ("$" ++ toString (num_update_params + i + 1)))
      where_clause

/-- GenericStore::update_where in atomic-operations mode, for a model
without soft delete (store_object.rs lines 430-555): build the WHERE clause,
build the sorted SET clause, renumber the WHERE placeholders to follow the
SET parameters, assemble the UPDATE ... RETURNING * statement, and bind the
SET values followed by the WHERE values. -/
def update_where_sql (table_name : String) (conds : List QueryFilter)
    (ops : UpdateOps) : String × List Json :=
  let wr := SqlGenerator.build_where_clause conds
  let where_clause := renderFrags wr.1
  let params := wr.2
  let sc := update_where_set_clause ops
  let adjusted := adjust_where_clause where_clause sc.2.2 params.length
  ("UPDATE " ++ table_name ++ " SET " ++ sc.1 ++ ", __updated_at__ = NOW() " ++ adjusted
      ++ " RETURNING *",
    sc.2.1 ++ params)

/-- C5: the WHERE-clause parameter renumbering of update_where is wrong at
this input.  With 8 SET parameters and the compiled WHERE clause
"WHERE x = $1 AND y = $2", the claim requires rewriting dollar-1 to dollar-9
and dollar-2 to dollar-10; the reverse replacement loop first rewrites
dollar-2 to dollar-10, and the later dollar-1-to-dollar-9 replacement also
rewrites the dollar-1 prefix inside that freshly written dollar-10,
producing the out-of-range placeholder dollar-90.  The final conjunct
records that on the claim's small example, increment("balance", 100)
filtered by eq("id", X), the SET clause uses dollar-1, the WHERE clause uses
dollar-2 and the bound values are [100, X] as claimed. -/
theorem update_where_renumbering_bug :
    adjust_where_clause "WHERE x = $1 AND y = $2" 8 2 = "WHERE x = $9 AND y = $90" ∧
    adjust_where_clause "WHERE x = $1 AND y = $2" 8 2 ≠ "WHERE x = $9 AND y = $10" ∧
    (update_where_sql "t"
        [.condition ⟨"x", .eq, some (.num 1)⟩, .condition ⟨"y", .eq, some (.num 2)⟩]
        [("a", .set (.num 0)), ("b", .set (.num 0)), ("c", .set (.num 0)),
         ("d", .set (.num 0)), ("e", .set (.num 0)), ("f", .set (.num 0)),
         ("g", .set (.num 0)), ("h", .set (.num 0))]).1 =
      "UPDATE t SET a = $1, b = $2, c = $3, d = $4, e = $5, f = $6, g = $7, h = $8, __updated_at__ = NOW() WHERE x = $9 AND y = $90 RETURNING *" ∧
    update_where_sql "t" [.condition ⟨"id", .eq, some (.str "X")⟩]
        [("balance", .increment (.num 100))] =
      ("UPDATE t SET balance = balance + $1, __updated_at__ = NOW() WHERE id = $2 RETURNING *",
        [Json.num 100, Json.str "X"]) := by
  exact ⟨by decide, by decide, by decide, by decide⟩

/-- C10: two update_where calls whose UpdateSet contents are equal (the
association lists drawn from the HashMap are permutations of one another,
with the distinct keys the HashMap guarantees) and whose filters are equal
produce the identical SQL string and identical bound-parameter order,
because update_where sorts the operations by field name before rendering. -/
theorem update_where_sql_deterministic (table_name : String)
    (conds : List QueryFilter) (l1 l2 : UpdateOps)
    (hnd : (l1.map Prod.fst).Nodup) (hperm : l1.Perm l2) :
    update_where_sql table_name conds l1 = update_where_sql table_name conds l2 := by
  have hsortperm : (sort_by_field l1).Perm (sort_by_field l2) :=
    (List.perm_insertionSort opsLe l1).trans
      (hperm.trans (List.perm_insertionSort opsLe l2).symm)
  have hs1 : List.Pairwise opsLe (sort_by_field l1) := List.sorted_insertionSort opsLe l1
  have hs2 : List.Pairwise opsLe (sort_by_field l2) := List.sorted_insertionSort opsLe l2
  have hnd1 : ((sort_by_field l1).map Prod.fst).Nodup := by
    have hp : ((sort_by_field l1).map Prod.fst).Perm (l1.map Prod.fst) :=
      (List.perm_insertionSort opsLe l1).map Prod.fst
    exact hp.nodup_iff.mpr hnd
  have hnd2 : ((sort_by_field l2).map Prod.fst).Nodup := by
    have hp : ((sort_by_field l2).map Prod.fst).Perm (l1.map Prod.fst) :=
      ((List.perm_insertionSort opsLe l2).map Prod.fst).trans (hperm.map Prod.fst).symm
    exact hp.nodup_iff.mpr hnd
  have hpw1 : List.Pairwise (fun a b => opsLe a b ∧ a.1 ≠ b.1) (sort_by_field l1) :=
    hs1.and (List.pairwise_map.mp hnd1)
  have hpw2 : List.Pairwise (fun a b => opsLe a b ∧ a.1 ≠ b.1) (sort_by_field l2) :=
    hs2.and (List.pairwise_map.mp hnd2)
  haveI : IsAntisymm (String × UpdateOperation) (fun a b => opsLe a b ∧ a.1 ≠ b.1) :=
    ⟨fun _ _ h1 h2 => absurd (rustStrLe_antisymm h1.1 h2.1) h1.2⟩
  have hsort : sort_by_field l1 = sort_by_field l2 :=
    List.eq_of_perm_of_sorted hsortperm hpw1 hpw2
  unfold update_where_sql update_where_set_clause
  rw [hsort]

/-- Witness for update_where_sql_deterministic: two iteration orders of the
same two-operation UpdateSet, with the same filter, giving identical output. -/
theorem update_where_sql_deterministic_witness :
    (([("b", UpdateOperation.increment (Json.num 1)),
       ("a", UpdateOperation.set (Json.num 2))] : UpdateOps).map Prod.fst).Nodup ∧
    ([("b", UpdateOperation.increment (Json.num 1)),
      ("a", UpdateOperation.set (Json.num 2))] : UpdateOps).Perm
      [("a", UpdateOperation.set (Json.num 2)),
       ("b", UpdateOperation.increment (Json.num 1))] ∧
    update_where_sql "t" [.condition ⟨"id", .eq, some (.num 7)⟩]
        [("b", UpdateOperation.increment (Json.num 1)),
         ("a", UpdateOperation.set (Json.num 2))] =
      update_where_sql "t" [.condition ⟨"id", .eq, some (.num 7)⟩]
        [("a", UpdateOperation.set (Json.num 2)),
         ("b", UpdateOperation.increment (Json.num 1))] :=
  ⟨by decide, by decide,
    update_where_sql_deterministic "t" [.condition ⟨"id", .eq, some (.num 7)⟩] _ _
      (by decide) (by decide)⟩

/-- Universal ID (id_type.rs, UniversalId).  A Uuid is carried as its
hyphenated lowercase text. -/
inductive UniversalId where
  | numeric (n : Int)
  | uuid (u : String)
  | str (s : String)
  deriving DecidableEq

/-- UniversalId::to_string_fast (id_type.rs lines 21-31): decimal digits for
a numeric id, the hyphenated text for a Uuid, the raw string for a String. -/
def UniversalId.to_string_fast : UniversalId → String
  | .numeric n => toString n
  | .uuid u => u
  | .str s => s

/-- Rust Debug escaping of one character inside a quoted string (quote and
backslash get a backslash escape; other printable characters print
themselves, which covers the ids modeled here). -/
def rustDebugChar (c : Char) : List Char :=
  if c = '"' ∨ c = '\\' then ['\\', c] else [c]

/-- The id text produced by get_by_id's write!(id_buffer, "{:?}", id)
(store_object.rs lines 69-70 and 103-104) for the concrete Rust id types:
an integer's Debug is its decimal digits, a Uuid's Debug equals its
hyphenated Display, and a String's Debug wraps it in double quotes with
backslash escapes. -/
def rustDebugFormat : UniversalId → String
  | .numeric n => toString n
  | .uuid u => u
  | .str s => "\"" ++ String.mk ((s.data.map rustDebugChar).flatten) ++ "\""

/-- CacheManager::build_record_key (cache_system/manager.rs lines 75-77). -/
def build_record_key (cache_pfx table_name id : String) : String :=
  cache_pfx ++ ":" ++ table_name ++ ":record:" ++ id

/-- The fixed part of CacheManager::invalidate_queries' pattern
prefix:table:query:* (cache_system/manager.rs line 252): a cached query key
belongs to the table's query namespace when it starts with this text. -/
def query_namespace (cache_pfx table_name : String) : String :=
  cache_pfx ++ ":" ++ table_name ++ ":query:"

/-- Event type (signal_system, EventType). -/
inductive EventType where
  | create | update | delete
  deriving DecidableEq

/-- Database event (signal_system/event.rs), abstracted to what the claims
observe: its type, its table, the optional record id, and the records
carried in the payload (the aggregated record list for batch events). -/
structure DbEvent (V : Type) where
  event_type : EventType
  table : String
  record_id : Option String
  records : List V
  deriving DecidableEq

/-- Observable state around one GenericStore: the relational rows, the
soft-delete flags (ids currently flagged inactive), the record cache and the
query-result cache namespace of the cache client, and the events handed to
the signal bus in order.  A cache set is modeled by consing (lookup takes
the first match, so consing overwrites). -/
structure World (V : Type) where
  db : List (UniversalId × V)
  inactive : List UniversalId
  recordCache : List (String × V)
  queryKeys : List String
  events : List (DbEvent V)
  deriving DecidableEq

/-- The store's collaborators and static metadata (generic_store/core.rs):
whether a signal manager and a cache manager are configured, the effective
cache prefix, and the table name. -/
structure StoreConfig where
  has_signal : Bool
  has_cache : Bool
  cache_pfx : String
  table_name : String
  deriving DecidableEq

/-- Apply one UPDATE ... WHERE id row write: every row with the given id
takes the new record value. -/
def dbSet {V : Type} (db : List (UniversalId × V)) (id : UniversalId) (v : V) :
    List (UniversalId × V) :=
  db.map fun p => if p.1 = id then (p.1, v) else p

namespace GenericStore

variable {V : Type}

/-- GenericStore::get_by_id (store_object.rs lines 62-126) with a cache
client that does not fail (the cache error paths are modeled separately by
get_by_id_errors): when a cache manager is present, probe the record cache
under the Debug-formatted id; on a hit return the cached record immediately;
on a miss read the database, and when a record is found and a cache manager
is present store it under the same Debug-formatted key before returning. -/
def get_by_id (cfg : StoreConfig) (w : World V) (id : UniversalId) :
    World V × Option V :=
  let id_buffer := rustDebugFormat id
  match (if cfg.has_cache then
      w.recordCache.lookup (build_record_key cfg.cache_pfx cfg.table_name id_buffer)
    else none) with
  | some cached => (w, some cached)
  | none =>
    match w.db.lookup id with
    | some record =>
      (if cfg.has_cache then
        { w with recordCache :=
            (build_record_key cfg.cache_pfx cfg.table_name id_buffer, record)
              :: w.recordCache }
      else w, some record)
    | none => (w, none)

/-- GenericStore::update (store_object.rs lines 137-188): execute the update
SQL (the oracle argument is the backend outcome; on success the row is
persisted and the updated record returned), emit one Update event when a
signal manager is present, then, when a cache manager is present, delete the
record's cache key built from to_string_fast and invalidate the table's
whole query-result namespace, and return the updated record. -/
def update (cfg : StoreConfig) (w : World V) (id : UniversalId)
    (exec_result : Except Unit V) : Except Unit (World V × V) :=
  match exec_result with
  | .error e => .error e
  | .ok updated =>
    let w1 := { w with db := dbSet w.db id updated }
    let w2 := if cfg.has_signal then
        { w1 with events := w1.events ++
            [⟨.update, cfg.table_name, some id.to_string_fast, [updated]⟩] }
      else w1
    let w3 := if cfg.has_cache then
        { w2 with
          recordCache := w2.recordCache.filter fun kv =>
            decide (kv.1 ≠ build_record_key cfg.cache_pfx cfg.table_name id.to_string_fast),
          queryKeys := w2.queryKeys.filter fun k =>
            !(k.startsWith (query_namespace cfg.cache_pfx cfg.table_name)) }
      else w2
    .ok (w3, updated)

/-- The per-row loop of update_many inside the transaction (store_object.rs
lines 204-209): execute_update_tx runs against the transaction's staged
rows; the oracle returns the staged rows after the row update together with
the updated record, or the backend error.  The first error aborts the loop
(the question-mark operator), dropping the transaction. -/
def update_many_loop
    (exec : List (UniversalId × V) → UniversalId × V →
      Except Unit (List (UniversalId × V) × V)) :
    List (UniversalId × V) → List (UniversalId × V) →
    Except Unit (List (UniversalId × V) × List V)
  | staged, [] => .ok (staged, [])
  | staged, u :: rest =>
    match exec staged u with
    | .error e => .error e
    | .ok (staged1, updated) =>
      match update_many_loop exec staged1 rest with
      | .error e => .error e
      | .ok (staged2, results) => .ok (staged2, updated :: results)

/-- GenericStore::update_many (store_object.rs lines 190-255): run every
update inside one transaction; on any error return it with the committed
state unchanged (the dropped transaction rolls back); on success commit the
staged rows and then, when a signal manager is present and at least one row
was updated, append exactly one aggregated Update event carrying all the
updated records.  The function contains no cache operation. -/
def update_many (cfg : StoreConfig) (w : World V)
    (updates : List (UniversalId × V))
    (exec : List (UniversalId × V) → UniversalId × V →
      Except Unit (List (UniversalId × V) × V)) :
    World V × Except Unit (List V) :=
  match update_many_loop exec w.db updates with
  | .error e => (w, .error e)
  | .ok (staged, results) =>
    let w1 := { w with db := staged }
    let w2 := if cfg.has_signal && !results.isEmpty then
        { w1 with events := w1.events ++ [⟨.update, cfg.table_name, none, results⟩] }
      else w1
    (w2, .ok results)

/-- SoftDeletable::set_active for GenericStore
(generic_store/soft_deletable.rs lines 51-81): one UPDATE flipping the
soft-delete flag of the row; returns whether a row was affected.  It
performs no signal emission and no cache operation. -/
def set_active (w : World V) (id : UniversalId) (is_active : Bool) :
    World V × Bool :=
  if (w.db.lookup id).isSome then
    (if is_active then
        { w with inactive := w.inactive.filter fun j => decide (j ≠ id) }
      else { w with inactive := id :: w.inactive }, true)
  else (w, false)

/-- GenericStore::delete (store_object.rs lines 257-284): soft-delete models
route to set_active(id, false); hard delete removes the row, then emits a
Delete event when a row was deleted and a signal manager is present.
Neither path performs any cache operation. -/
def delete (cfg : StoreConfig) (supports_soft_delete : Bool) (w : World V)
    (id : UniversalId) : World V × Bool :=
  if supports_soft_delete then set_active w id false
  else
    let deleted := (w.db.lookup id).isSome
    let w1 := { w with db := w.db.filter fun p => decide (p.1 ≠ id) }
    let w2 := if deleted && cfg.has_signal then
        { w1 with events := w1.events ++
            [⟨.delete, cfg.table_name, some id.to_string_fast, []⟩] }
      else w1
    (w2, deleted)

/-- The soft branch of delete_many (store_object.rs lines 288-297): call
set_active(id, false) for each id, collecting the ids whose row existed. -/
def delete_many_soft_loop : World V → List UniversalId → World V × List UniversalId
  | w, [] => (w, [])
  | w, id :: rest =>
    let r := set_active w id false
    let rr := delete_many_soft_loop r.1 rest
    (rr.1, (if r.2 then [id] else []) ++ rr.2)

/-- The hard branch's transactional loop of delete_many (store_object.rs
lines 302-325): delete each row, collecting the ids whose row existed. -/
def delete_many_hard_loop : World V → List UniversalId → World V × List UniversalId
  | w, [] => (w, [])
  | w, id :: rest =>
    let deleted := (w.db.lookup id).isSome
    let w1 := { w with db := w.db.filter fun p => decide (p.1 ≠ id) }
    let rr := delete_many_hard_loop w1 rest
    (rr.1, (if deleted then [id] else []) ++ rr.2)

/-- GenericStore::delete_many (store_object.rs lines 286-368): the soft path
loops set_active; the hard path deletes inside one transaction and then
emits one aggregated Delete event when a signal manager is present and rows
were deleted.  Neither path performs any cache operation. -/
def delete_many (cfg : StoreConfig) (supports_soft_delete : Bool) (w : World V)
    (ids : List UniversalId) : World V × List UniversalId :=
  if supports_soft_delete then delete_many_soft_loop w ids
  else
    let r := delete_many_hard_loop w ids
    let w2 := if cfg.has_signal && !r.2.isEmpty then
        { r.1 with events := r.1.events ++ [⟨.delete, cfg.table_name, none, []⟩] }
      else r.1
    (w2, r.2)

/-- GenericStore::delete_where (store_object.rs lines 754-954): the WHERE
clause is compiled with build_where_clause; the backend applies it and
returns the affected ids (the oracle argument).  The soft path flags those
rows inactive, the hard path removes them; one aggregated Delete event is
emitted when a signal manager is present and rows were affected.  The
function contains no cache operation. -/
def delete_where (cfg : StoreConfig) (supports_soft_delete : Bool) (w : World V)
    (_conds : List QueryFilter) (deleted_ids : List UniversalId) :
    World V × List UniversalId :=
  let w1 := if supports_soft_delete then
      { w with inactive := deleted_ids ++ w.inactive }
    else
      { w with db := w.db.filter fun p => decide (p.1 ∉ deleted_ids) }
  let w2 := if cfg.has_signal && !deleted_ids.isEmpty then
      { w1 with events := w1.events ++ [⟨.delete, cfg.table_name, none, []⟩] }
    else w1
  (w2, deleted_ids)

/-- GenericStore::update_where at the state level (store_object.rs lines
430-604; the SQL text itself is update_where_sql): the backend returns the
affected rows with their ids (RETURNING *, the oracle argument); the rows
are persisted, one aggregated Update event is emitted when a signal manager
is present and rows were affected, and, when a cache manager is present,
the record cache key of every affected record (built from extract_id via
to_string_fast) is deleted and the table's whole query-result namespace is
invalidated. -/
def update_where (cfg : StoreConfig) (w : World V) (_conds : List QueryFilter)
    (_ops : UpdateOps) (updated_records : List (UniversalId × V)) :
    World V × List V :=
  let w1 := { w with db := updated_records.foldl (fun d p => dbSet d p.1 p.2) w.db }
  let w2 := if cfg.has_signal && !updated_records.isEmpty then
      { w1 with events := w1.events ++
          [⟨.update, cfg.table_name, none, updated_records.map Prod.snd⟩] }
    else w1
  let w3 := if cfg.has_cache then
      { w2 with
        recordCache := w2.recordCache.filter fun kv =>
          decide (∀ p ∈ updated_records,
            kv.1 ≠ build_record_key cfg.cache_pfx cfg.table_name p.1.to_string_fast),
        queryKeys := w2.queryKeys.filter fun k =>
          !(k.startsWith (query_namespace cfg.cache_pfx cfg.table_name)) }
    else w2
  (w3, updated_records.map Prod.snd)

/-- Storehaus error values observed by the error-path model of get_by_id
(errors.rs, StorehausError, restricted to the variants that function
produces). -/
inductive StorehausErr where
  | cache_operation (operation : String)
  | query_execution
  deriving DecidableEq

/-- GenericStore::get_by_id error plumbing (store_object.rs lines 62-126):
the cache lookup, the database fetch and the cache population are oracles.
A cache lookup error becomes cache_operation "get_by_id"; a database error
becomes query_execution; after a successful fetch of a record, a cache
population error becomes cache_operation "get_by_id_cache_set" even though
the database read succeeded. -/
def get_by_id_errors (has_cache : Bool) (cacheGet : Except Unit (Option V))
    (dbFetch : Except Unit (Option V)) (cacheSet : Except Unit Unit) :
    Except StorehausErr (Option V) :=
  match has_cache, cacheGet with
  | true, .ok (some cached) => .ok (some cached)
  | true, .error _ => .error (.cache_operation "get_by_id")
  | _, _ =>
    match dbFetch with
    | .error _ => .error .query_execution
    | .ok result =>
      match result, has_cache with
      | some _, true =>
        match cacheSet with
        | .error _ => .error (.cache_operation "get_by_id_cache_set")
        | .ok _ => .ok result
      | _, _ => .ok result

end GenericStore

section StoreEngineClaims

open GenericStore

variable {V : Type}

theorem set_active_cache_unchanged (w : World V) (id : UniversalId) (b : Bool) :
    (set_active w id b).1.recordCache = w.recordCache ∧
    (set_active w id b).1.queryKeys = w.queryKeys := by
  unfold GenericStore.set_active
  split_ifs <;> exact ⟨rfl, rfl⟩

theorem delete_many_soft_loop_cache_unchanged (ids : List UniversalId) :
    ∀ w : World V,
      (delete_many_soft_loop w ids).1.recordCache = w.recordCache ∧
      (delete_many_soft_loop w ids).1.queryKeys = w.queryKeys := by
  induction ids with
  | nil => intro w; exact ⟨rfl, rfl⟩
  | cons id rest ih =>
    intro w
    have h1 := set_active_cache_unchanged w id false
    have h2 := ih (set_active w id false).1
    simp only [GenericStore.delete_many_soft_loop]
    exact ⟨h2.1.trans h1.1, h2.2.trans h1.2⟩

theorem delete_many_hard_loop_cache_unchanged (ids : List UniversalId) :
    ∀ w : World V,
      (delete_many_hard_loop w ids).1.recordCache = w.recordCache ∧
      (delete_many_hard_loop w ids).1.queryKeys = w.queryKeys := by
  induction ids with
  | nil => intro w; exact ⟨rfl, rfl⟩
  | cons id rest ih =>
    intro w
    have h2 := ih { w with db := w.db.filter fun p => decide (p.1 ≠ id) }
    simp only [GenericStore.delete_many_hard_loop]
    exact ⟨h2.1, h2.2⟩

/-- C2 counterexample: a successful update_many, with a cache manager
configured, performs no cache invalidation: the stale record-cache entry of
the updated row and the table's cached query key both survive unchanged
(store_object.rs lines 190-255 contain no cache operation), contradicting
the claim that every successful mutation deletes the affected record keys
and invalidates the query namespace before returning. -/
theorem update_many_leaves_cache_untouched :
    GenericStore.update_many ⟨false, true, "app", "users"⟩
        (⟨[(.numeric 1, 10)], [], [(build_record_key "app" "users" "1", 10)],
          ["app:users:query:abc"], []⟩ : World Nat)
        [(.numeric 1, 20)]
        (fun staged u => .ok (dbSet staged u.1 u.2, u.2)) =
      (⟨[(.numeric 1, 20)], [], [(build_record_key "app" "users" "1", 10)],
        ["app:users:query:abc"], []⟩, .ok [20]) := by
  decide

/-- C2 (amended): the cache discipline of the mutation paths, with a cache
manager configured.  A successful update deletes the updated record's cache
key (built from to_string_fast) and empties the table's query-result
namespace before returning, and update_where does the same for the key of
every affected record; but update_many, delete (soft or hard), delete_many
and delete_where perform no cache operation at all: they return the record
cache and the query-key namespace exactly as they were. -/
theorem cache_invalidation_only_on_update_and_update_where
    (cfg : StoreConfig) (w : World V) (hc : cfg.has_cache = true) :
    (∀ id v w1 v1, GenericStore.update cfg w id (.ok v) = .ok (w1, v1) →
      (∀ kv ∈ w1.recordCache,
        kv.1 ≠ build_record_key cfg.cache_pfx cfg.table_name id.to_string_fast) ∧
      (∀ k ∈ w1.queryKeys,
        k.startsWith (query_namespace cfg.cache_pfx cfg.table_name) = false)) ∧
    (∀ conds ops updated_records,
      (∀ kv ∈ (GenericStore.update_where cfg w conds ops updated_records).1.recordCache,
        ∀ p ∈ updated_records,
          kv.1 ≠ build_record_key cfg.cache_pfx cfg.table_name p.1.to_string_fast) ∧
      (∀ k ∈ (GenericStore.update_where cfg w conds ops updated_records).1.queryKeys,
        k.startsWith (query_namespace cfg.cache_pfx cfg.table_name) = false)) ∧
    (∀ updates exec,
      (GenericStore.update_many cfg w updates exec).1.recordCache = w.recordCache ∧
      (GenericStore.update_many cfg w updates exec).1.queryKeys = w.queryKeys) ∧
    (∀ ssd id,
      (GenericStore.delete cfg ssd w id).1.recordCache = w.recordCache ∧
      (GenericStore.delete cfg ssd w id).1.queryKeys = w.queryKeys) ∧
    (∀ ssd ids,
      (GenericStore.delete_many cfg ssd w ids).1.recordCache = w.recordCache ∧
      (GenericStore.delete_many cfg ssd w ids).1.queryKeys = w.queryKeys) ∧
    (∀ ssd conds ids,
      (GenericStore.delete_where cfg ssd w conds ids).1.recordCache = w.recordCache ∧
      (GenericStore.delete_where cfg ssd w conds ids).1.queryKeys = w.queryKeys) := by
  refine ⟨?_, ?_, ?_, ?_, ?_, ?_⟩
  · intro id v w1 v1 hup
    simp only [GenericStore.update, hc, if_true] at hup
    obtain ⟨hw, _⟩ := Prod.mk.injEq .. ▸ Except.ok.inj hup
    subst hw
    constructor
    · intro kv hkv
      have := List.mem_filter.mp hkv
      exact of_decide_eq_true this.2
    · intro k hk
      have := List.mem_filter.mp hk
      simpa using this.2
  · intro conds ops updated_records
    simp only [GenericStore.update_where, hc, if_true]
    constructor
    · intro kv hkv p hp
      have := List.mem_filter.mp hkv
      exact of_decide_eq_true this.2 p hp
    · intro k hk
      have := List.mem_filter.mp hk
      simpa using this.2
  · intro updates exec
    unfold GenericStore.update_many
    cases hloop : update_many_loop exec w.db updates with
    | error e => exact ⟨rfl, rfl⟩
    | ok r =>
      cases hcond : (cfg.has_signal && !r.2.isEmpty) <;>
        simp [hcond]
  · intro ssd id
    unfold GenericStore.delete
    by_cases hssd : ssd
    · simpa [hssd] using set_active_cache_unchanged w id false
    · cases hcond : (((w.db.lookup id).isSome : Bool) && cfg.has_signal) <;>
        simp [hssd, hcond]
  · intro ssd ids
    unfold GenericStore.delete_many
    by_cases hssd : ssd
    · simpa [hssd] using delete_many_soft_loop_cache_unchanged ids w
    · have hh := delete_many_hard_loop_cache_unchanged (V := V) ids w
      cases hcond : (cfg.has_signal && !(delete_many_hard_loop w ids).2.isEmpty) <;>
        simpa [hssd, hcond] using hh
  · intro ssd conds ids
    unfold GenericStore.delete_where
    by_cases hssd : ssd <;>
      cases hcond : (cfg.has_signal && !ids.isEmpty) <;>
        simp [hssd, hcond]

/-- Witness for cache_invalidation_only_on_update_and_update_where: a
concrete store with caching enabled; the update_many conjunct instantiated
shows its record cache is returned unchanged. -/
theorem cache_invalidation_only_on_update_and_update_where_witness :
    (GenericStore.update_many ⟨false, true, "app", "users"⟩
        (⟨[(.numeric 1, 10)], [], [(build_record_key "app" "users" "1", 10)],
          ["app:users:query:abc"], []⟩ : World Nat)
        [(.numeric 1, 20)]
        (fun staged u => .ok (dbSet staged u.1 u.2, u.2))).1.recordCache =
      [(build_record_key "app" "users" "1", 10)] :=
  ((cache_invalidation_only_on_update_and_update_where ⟨false, true, "app", "users"⟩
      (⟨[(.numeric 1, 10)], [], [(build_record_key "app" "users" "1", 10)],
        ["app:users:query:abc"], []⟩ : World Nat) rfl).2.2.1
    [(.numeric 1, 20)] (fun staged u => .ok (dbSet staged u.1 u.2, u.2))).1

/-- C3: the cache key written by get_by_id on a read-miss and the key
deleted by update disagree for a string-typed id, because get_by_id formats
the id with Debug (which quotes a String) while update's invalidation uses
to_string_fast (which does not).  Concretely, with record id "abc" and value
10: get_by_id caches the record under the quoted key; a successful
update(id, 20) persists 20 but deletes only the unquoted key, leaving the
stale entry; the immediately following get_by_id returns the stale 10, not
the updated 20 — a stale cache read the claim rules out. -/
theorem update_then_get_by_id_stale_for_string_id :
    GenericStore.update ⟨false, true, "app", "users"⟩
        (GenericStore.get_by_id ⟨false, true, "app", "users"⟩
            (⟨[(.str "abc", 10)], [], [], [], []⟩ : World Nat) (.str "abc")).1
        (.str "abc") (.ok 20) =
      .ok (⟨[(.str "abc", 20)], [], [("app:users:record:\"abc\"", 10)], [], []⟩, 20) ∧
    (GenericStore.get_by_id ⟨false, true, "app", "users"⟩
        (⟨[(.str "abc", 20)], [], [("app:users:record:\"abc\"", 10)], [], []⟩ : World Nat)
        (.str "abc")).2 = some 10 ∧
    some 10 ≠ some (20 : Nat) ∧
    rustDebugFormat (.str "abc") ≠ UniversalId.to_string_fast (.str "abc") := by
  exact ⟨by decide, by decide, by decide, by decide⟩

theorem update_many_loop_length
    (exec : List (UniversalId × V) → UniversalId × V →
      Except Unit (List (UniversalId × V) × V)) :
    ∀ (updates : List (UniversalId × V)) (staged : List (UniversalId × V))
      (r : List (UniversalId × V) × List V),
      update_many_loop exec staged updates = .ok r → r.2.length = updates.length := by
  intro updates
  induction updates with
  | nil =>
    intro staged r h
    simp only [GenericStore.update_many_loop] at h
    obtain rfl := Except.ok.inj h
    rfl
  | cons u rest ih =>
    intro staged r h
    simp only [GenericStore.update_many_loop] at h
    cases hexec : exec staged u with
    | error e => simp [hexec] at h
    | ok s1 =>
      obtain ⟨staged1, updated⟩ := s1
      simp only [hexec] at h
      cases hrec : update_many_loop exec staged1 rest with
      | error e => simp [hrec] at h
      | ok r2 =>
        obtain ⟨staged2, results⟩ := r2
        simp only [hrec] at h
        obtain rfl := Except.ok.inj h
        have hlen := ih staged1 (staged2, results) hrec
        simp_all

/-- C4: update_many runs every update inside one transaction and is
all-or-nothing: if any single update fails, the committed state is returned
unchanged (no record persisted, no event appended) together with the error;
if all succeed, there is one result record per input pair and exactly one
aggregated Update event carrying all updated records is appended — after
the commit — when a signal manager is configured and the batch is
non-empty, and no event otherwise. -/
theorem update_many_transactional (cfg : StoreConfig) (w : World V)
    (updates : List (UniversalId × V))
    (exec : List (UniversalId × V) → UniversalId × V →
      Except Unit (List (UniversalId × V) × V)) :
    (∀ e, (update_many cfg w updates exec).2 = .error e →
      (update_many cfg w updates exec).1 = w) ∧
    (∀ results, (update_many cfg w updates exec).2 = .ok results →
      results.length = updates.length ∧
      (update_many cfg w updates exec).1.events =
        w.events ++ (if cfg.has_signal && !results.isEmpty then
          [⟨.update, cfg.table_name, none, results⟩] else [])) := by
  unfold GenericStore.update_many
  cases hloop : update_many_loop exec w.db updates with
  | error e => exact ⟨fun _ _ => rfl, fun results hres => by cases hres⟩
  | ok r =>
    constructor
    · intro e he
      by_cases hcond : (cfg.has_signal && !r.2.isEmpty) = true <;>
        simp [hcond] at he
    · intro results hres
      have hr2 : r.2 = results := by
        by_cases hcond : (cfg.has_signal && !r.2.isEmpty) = true <;>
          · simp [hcond] at hres
            exact hres
      subst hr2
      refine ⟨update_many_loop_length exec updates w.db r hloop, ?_⟩
      by_cases hcond : (cfg.has_signal && !r.2.isEmpty) = true <;>
        simp [hcond]

/-- Witness for update_many_transactional: a two-pair batch whose second
update violates a backend constraint; the call returns the error and the
world — rows and events — is unchanged, so neither record was persisted and
no Update event was emitted. -/
theorem update_many_transactional_witness :
    (GenericStore.update_many (⟨true, false, "app", "users"⟩ : StoreConfig)
        (⟨[(.numeric 1, 10), (.numeric 2, 11)], [], [], [], []⟩ : World Nat)
        [(.numeric 1, 20), (.numeric 2, 21)]
        (fun staged u => if u.1 = .numeric 2 then .error ()
          else .ok (dbSet staged u.1 u.2, u.2))).2 = .error () ∧
    (GenericStore.update_many (⟨true, false, "app", "users"⟩ : StoreConfig)
        (⟨[(.numeric 1, 10), (.numeric 2, 11)], [], [], [], []⟩ : World Nat)
        [(.numeric 1, 20), (.numeric 2, 21)]
        (fun staged u => if u.1 = .numeric 2 then .error ()
          else .ok (dbSet staged u.1 u.2, u.2))).1 =
      ⟨[(.numeric 1, 10), (.numeric 2, 11)], [], [], [], []⟩ :=
  ⟨by decide,
    (update_many_transactional (⟨true, false, "app", "users"⟩ : StoreConfig)
        (⟨[(.numeric 1, 10), (.numeric 2, 11)], [], [], [], []⟩ : World Nat)
        [(.numeric 1, 20), (.numeric 2, 21)]
        (fun staged u => if u.1 = .numeric 2 then .error ()
          else .ok (dbSet staged u.1 u.2, u.2))).1 () (by decide)⟩

/-- C9: with a cache manager configured, any cache-client error fails the
whole get_by_id call: an error on the initial cache lookup yields the
cache_operation "get_by_id" error, and an error while populating the cache
after a successful database fetch of a record yields the cache_operation
"get_by_id_cache_set" error even though the database read itself
succeeded. -/
theorem get_by_id_fail_closed (cacheGet dbFetch : Except Unit (Option V))
    (cacheSet : Except Unit Unit) :
    (cacheGet = .error () →
      get_by_id_errors true cacheGet dbFetch cacheSet =
        .error (.cache_operation "get_by_id")) ∧
    (∀ r, cacheGet = .ok none → dbFetch = .ok (some r) → cacheSet = .error () →
      get_by_id_errors true cacheGet dbFetch cacheSet =
        .error (.cache_operation "get_by_id_cache_set")) := by
  constructor
  · intro h; subst h; rfl
  · intro r h1 h2 h3; subst h1; subst h2; subst h3; rfl

/-- Witness for get_by_id_fail_closed: both error paths at concrete
oracle outcomes. -/
theorem get_by_id_fail_closed_witness :
    GenericStore.get_by_id_errors true (.ok none) (.ok (some (7 : Nat))) (.error ()) =
      .error (.cache_operation "get_by_id_cache_set") ∧
    GenericStore.get_by_id_errors (V := Nat) true (.error ()) (.ok none) (.ok ()) =
      .error (.cache_operation "get_by_id") :=
  ⟨(get_by_id_fail_closed (.ok none) (.ok (some (7 : Nat))) (.error ())).2 7 rfl rfl rfl,
    (get_by_id_fail_closed (.error ()) (.ok none) (.ok ())).1 rfl⟩

end StoreEngineClaims

/-- Per-callback bookkeeping (signal_system/manager.rs, CallbackMeta,
restricted to the counters; the callback closure and created_at are not
observed by the claims). -/
structure CallbackMeta where
  consecutive_failures : Nat
  total_executions : Nat
  total_failures : Nat
  deriving DecidableEq

/-- Outcome of one awaited callback invocation in emit: Ok(Ok(())) is a
success, Ok(Err(_)) a returned error, Err(Elapsed) a timeout. -/
inductive CallbackOutcome where
  | success | failure | timedOut
  deriving DecidableEq

/-- The signal configuration fields emit reads (config crate,
SignalConfig). -/
structure SignalConfig where
  remove_failing_callbacks : Bool
  max_consecutive_failures : Nat
  deriving DecidableEq

namespace SignalManager

/-- The counter updates of emit's result-processing loop (manager.rs lines
179-236): success resets consecutive_failures; an error or a timeout
increments both total_failures and consecutive_failures (the two arms of the
match perform the same counter updates). -/
def applyOutcome : CallbackOutcome → CallbackMeta → CallbackMeta
  | .success, m => { m with consecutive_failures := 0 }
  | .failure, m => { m with consecutive_failures := m.consecutive_failures + 1,
                            total_failures := m.total_failures + 1 }
  | .timedOut, m => { m with consecutive_failures := m.consecutive_failures + 1,
                             total_failures := m.total_failures + 1 }

/-- The eviction test of emit (manager.rs lines 196-198 and 225-227): after
a failure or timeout, the id is queued for removal when
remove_failing_callbacks is set and the updated consecutive_failures has
reached max_consecutive_failures. -/
def shouldRemove (cfg : SignalConfig) (r : CallbackOutcome) (m : CallbackMeta) : Bool :=
  match r with
  | .success => false
  | _ => cfg.remove_failing_callbacks &&
      decide (cfg.max_consecutive_failures ≤ m.consecutive_failures)

/-- In-place mutation of one registry entry (the callbacks.get_mut(&id)
update), modeled by rewriting the entry with the matching key. -/
def replaceEntry (k : Nat) (v : CallbackMeta) (l : List (Nat × CallbackMeta)) :
    List (Nat × CallbackMeta) :=
  l.map fun im => if im.1 = k then (im.1, v) else im

/-- One iteration of emit's result-processing loop (manager.rs lines
177-238): look up the callback's metadata (it may have been removed in the
meantime), apply the counter updates for its outcome, and queue the id for
removal when the eviction test fires. -/
def processResult (cfg : SignalConfig)
    (acc : List (Nat × CallbackMeta) × List Nat) (ir : Nat × CallbackOutcome) :
    List (Nat × CallbackMeta) × List Nat :=
  match acc.1.lookup ir.1 with
  | none => acc
  | some m =>
    let m1 := applyOutcome ir.2 m
    (replaceEntry ir.1 m1 acc.1,
      if shouldRemove cfg ir.2 m1 then acc.2 ++ [ir.1] else acc.2)

/-- The meta.total_executions += 1 bump of emit's first phase
(manager.rs line 154). -/
def bumpExec (m : CallbackMeta) : CallbackMeta :=
  { m with total_executions := m.total_executions + 1 }

/-- SignalManager::emit (manager.rs lines 147-244) as a sequential state
transformation on the registry: phase 1 snapshots the callbacks and bumps
every entry's total_executions; phase 2 awaits each callback, whose outcome
the oracle argument supplies per id; phase 3 folds the results back into the
counters and removes the queued ids.  (The registry is private to this emit
here; concurrent registrations between the phases are outside the claim.) -/
def emit (cfg : SignalConfig) (out : Nat → CallbackOutcome)
    (callbacks : List (Nat × CallbackMeta)) : List (Nat × CallbackMeta) :=
  let bumped := callbacks.map fun im => (im.1, bumpExec im.2)
  let results := bumped.map fun im => (im.1, out im.1)
  let r := results.foldl (processResult cfg) (bumped, [])
  r.1.filter fun im => decide (im.1 ∉ r.2)

/-- The await phase of emit (manager.rs lines 149-171) with tokio timeout
semantics.  Every timeout future is created in phase 1 while the write lock
is held, and tokio's timeout fixes its deadline at creation, so every
deadline is callback_timeout_seconds after emit's start (phase 1 itself is
taken as instantaneous, time 0).  The results loop then awaits the futures
one at a time: a callback's body only starts running at its own await (the
futures are lazy and never spawned), runs for its duration, completes if it
finishes by the shared deadline, and is otherwise cut off at that deadline;
a future awaited at or after its deadline returns Elapsed at once.  Given
the clock at the current await and the remaining callbacks' durations, this
returns emit's finish time and, per callback in order, whether it completed
(true) or was reported timed out (false). -/
def emit_await_phase (callback_timeout_seconds : Nat) :
    Nat → List Nat → Nat × List Bool
  | t, [] => (t, [])
  | t, d :: rest =>
    if t + d ≤ callback_timeout_seconds then
      let r := emit_await_phase callback_timeout_seconds (t + d) rest
      (r.1, true :: r.2)
    else
      let r := emit_await_phase callback_timeout_seconds
        (max t callback_timeout_seconds) rest
      (r.1, false :: r.2)

/-- Spec-side, from the claim's words: all snapshot members invoked
concurrently, each under its own timeout — so a callback is reported timed
out exactly when its own running time exceeds callback_timeout_seconds,
independently of the other callbacks. -/
def spec_concurrent_outcomes (callback_timeout_seconds : Nat)
    (durations : List Nat) : List Bool :=
  durations.map fun d => decide (d ≤ callback_timeout_seconds)



theorem lookup_cons_ne {β : Type} (k1 k2 : Nat) (v : β) (l : List (Nat × β)) (h : k2 ≠ k1) :
    List.lookup k2 ((k1, v) :: l) = List.lookup k2 l := by
  have hbeq : (k2 == k1) = false := by simp [h]
  simp [List.lookup_cons, hbeq]

theorem lookup_cons_self {β : Type} (k1 : Nat) (v : β) (l : List (Nat × β)) :
    List.lookup k1 ((k1, v) :: l) = some v := by
  simp [List.lookup_cons]

theorem lookup_replaceEntry_self (k : Nat) (v : CallbackMeta) (l : List (Nat × CallbackMeta)) :
    (replaceEntry k v l).lookup k = (l.lookup k).map fun _ => v := by
  induction l with
  | nil => rfl
  | cons im rest ih =>
    obtain ⟨k1, v1⟩ := im
    by_cases h : k1 = k
    · subst h
      simp [replaceEntry, lookup_cons_self]
    · simp only [replaceEntry, List.map_cons, if_neg h]
      rw [lookup_cons_ne k1 k v1 _ (Ne.symm h), lookup_cons_ne k1 k v1 _ (Ne.symm h)]
      exact ih

theorem lookup_replaceEntry_ne (k k2 : Nat) (v : CallbackMeta)
    (l : List (Nat × CallbackMeta)) (h : k2 ≠ k) :
    (replaceEntry k v l).lookup k2 = l.lookup k2 := by
  induction l with
  | nil => rfl
  | cons im rest ih =>
    obtain ⟨k1, v1⟩ := im
    by_cases him : k1 = k
    · subst him
      simp only [replaceEntry, List.map_cons, if_pos rfl, if_true]
      rw [lookup_cons_ne k1 k2 v _ h, lookup_cons_ne k1 k2 v1 _ h]
      exact ih
    · simp only [replaceEntry, List.map_cons, if_neg him]
      by_cases hk2 : k2 = k1
      · subst hk2
        rw [lookup_cons_self, lookup_cons_self]
      · rw [lookup_cons_ne k1 k2 v1 _ hk2, lookup_cons_ne k1 k2 v1 rest hk2]
        exact ih

theorem lookup_map_value (g : CallbackMeta → CallbackMeta) (id : Nat)
    (l : List (Nat × CallbackMeta)) :
    (l.map fun im => (im.1, g im.2)).lookup id = (l.lookup id).map g := by
  induction l with
  | nil => rfl
  | cons im rest ih =>
    obtain ⟨k1, v1⟩ := im
    rw [List.map_cons]
    by_cases hk : id = k1
    · subst hk
      rw [lookup_cons_self, lookup_cons_self]
      rfl
    · rw [lookup_cons_ne k1 id _ _ hk, lookup_cons_ne k1 id _ _ hk]
      exact ih

theorem lookup_some_mem {id : Nat} {m : CallbackMeta} :
    ∀ {l : List (Nat × CallbackMeta)}, l.lookup id = some m → (id, m) ∈ l := by
  intro l
  induction l with
  | nil => intro h; cases h
  | cons im rest ih =>
    obtain ⟨k1, v1⟩ := im
    intro h
    by_cases hk : id = k1
    · subst hk
      rw [lookup_cons_self] at h
      obtain rfl := Option.some.inj h
      exact List.mem_cons_self _ _
    · rw [lookup_cons_ne k1 id _ _ hk] at h
      exact List.mem_cons_of_mem _ (ih h)

theorem processResult_other (cfg : SignalConfig)
    (acc : List (Nat × CallbackMeta) × List Nat) (ir : Nat × CallbackOutcome)
    (id : Nat) (hne : id ≠ ir.1) :
    (processResult cfg acc ir).1.lookup id = acc.1.lookup id ∧
    (id ∈ (processResult cfg acc ir).2 ↔ id ∈ acc.2) := by
  unfold processResult
  cases hl : acc.1.lookup ir.1 with
  | none => exact ⟨rfl, Iff.rfl⟩
  | some m =>
    constructor
    · exact lookup_replaceEntry_ne ir.1 id _ acc.1 hne
    · by_cases hsr : shouldRemove cfg ir.2 (applyOutcome ir.2 m) = true
      · simp [hsr, hne]
      · simp [hsr]

theorem fold_processResult_untouched (cfg : SignalConfig) :
    ∀ (results : List (Nat × CallbackOutcome))
      (acc : List (Nat × CallbackMeta) × List Nat) (id : Nat),
      id ∉ results.map Prod.fst →
      ((results.foldl (processResult cfg) acc).1.lookup id = acc.1.lookup id ∧
       (id ∈ (results.foldl (processResult cfg) acc).2 ↔ id ∈ acc.2)) := by
  intro results
  induction results with
  | nil => intro acc id _; exact ⟨rfl, Iff.rfl⟩
  | cons ir rest ih =>
    intro acc id hmem
    rw [List.map_cons] at hmem
    have h1 : id ≠ ir.1 := fun he => hmem (by simp [he])
    have h2 : id ∉ rest.map Prod.fst := fun he => hmem (by simp [he])
    rw [List.foldl_cons]
    have hstep := processResult_other cfg acc ir id h1
    have hrest := ih (processResult cfg acc ir) id h2
    exact ⟨hrest.1.trans hstep.1, hrest.2.trans hstep.2⟩

theorem processResult_self (cfg : SignalConfig)
    (acc : List (Nat × CallbackMeta) × List Nat) (id : Nat) (r0 : CallbackOutcome)
    (m : CallbackMeta) (hl : acc.1.lookup id = some m) :
    ((processResult cfg acc (id, r0)).1.lookup id = some (applyOutcome r0 m)) ∧
    ((id ∈ (processResult cfg acc (id, r0)).2) ↔
      (shouldRemove cfg r0 (applyOutcome r0 m) = true ∨ id ∈ acc.2)) := by
  unfold processResult
  simp only [hl]
  constructor
  · rw [lookup_replaceEntry_self, hl]
    rfl
  · by_cases hsr : shouldRemove cfg r0 (applyOutcome r0 m) = true
    · simp [hsr]
    · simp [hsr]

theorem fold_processResult_at (cfg : SignalConfig)
    (l1 l2 : List (Nat × CallbackOutcome)) (id : Nat) (r0 : CallbackOutcome)
    (bumped : List (Nat × CallbackMeta)) (m : CallbackMeta)
    (h1 : id ∉ l1.map Prod.fst) (h2 : id ∉ l2.map Prod.fst)
    (hm : bumped.lookup id = some m) :
    (((l1 ++ (id, r0) :: l2).foldl (processResult cfg) (bumped, [])).1.lookup id =
      some (applyOutcome r0 m)) ∧
    (id ∈ ((l1 ++ (id, r0) :: l2).foldl (processResult cfg) (bumped, [])).2 ↔
      shouldRemove cfg r0 (applyOutcome r0 m) = true) := by
  rw [List.foldl_append, List.foldl_cons]
  have hu := fold_processResult_untouched cfg l1 (bumped, []) id h1
  have hl : (l1.foldl (processResult cfg) (bumped, [])).1.lookup id = some m :=
    hu.1.trans hm
  have hnotin : id ∉ (l1.foldl (processResult cfg) (bumped, [])).2 := by
    intro hmem
    simpa using hu.2.mp hmem
  have hstep := processResult_self cfg (l1.foldl (processResult cfg) (bumped, []))
    id r0 m hl
  have hrest := fold_processResult_untouched cfg l2
    (processResult cfg (l1.foldl (processResult cfg) (bumped, [])) (id, r0)) id h2
  refine ⟨hrest.1.trans hstep.1, hrest.2.trans (hstep.2.trans ?_)⟩
  simp [hnotin]

theorem lookup_filter_keys (rem : List Nat) (l : List (Nat × CallbackMeta)) (id : Nat) :
    (l.filter fun im => decide (im.1 ∉ rem)).lookup id =
      if id ∈ rem then none else l.lookup id := by
  induction l with
  | nil => simp
  | cons im rest ih =>
    obtain ⟨k1, v1⟩ := im
    rw [List.filter_cons]
    by_cases hk1 : k1 ∈ rem
    · rw [if_neg (by simp [hk1])]
      by_cases hid : id = k1
      · subst hid
        rw [ih, if_pos hk1, if_pos hk1]
      · rw [ih]
        by_cases hidr : id ∈ rem
        · rw [if_pos hidr, if_pos hidr]
        · rw [if_neg hidr, if_neg hidr, lookup_cons_ne k1 id v1 rest hid]
    · rw [if_pos (by simp [hk1])]
      by_cases hid : id = k1
      · subst hid
        rw [lookup_cons_self, lookup_cons_self, if_neg hk1]
      · rw [lookup_cons_ne k1 id v1 _ hid, ih, lookup_cons_ne k1 id v1 rest hid]

/-- C7: the per-callback bookkeeping of one emit, for a registry whose ids
are distinct (the HashMap invariant) and a callback registered under the
given id: its total_executions is bumped for the emit; a successful
invocation resets its consecutive_failures to 0 (total_failures untouched);
a failed or timed-out invocation increments both consecutive_failures and
total_failures, and, when eviction-on-failure is enabled and the new
consecutive_failures has reached max_consecutive_failures, the callback is
removed from the registry by the end of that emit (so it receives no
further events); otherwise it stays with the incremented counters. -/
theorem emit_callback_lifecycle (cfg : SignalConfig) (out : Nat → CallbackOutcome)
    (cbs : List (Nat × CallbackMeta)) (hnd : (cbs.map Prod.fst).Nodup)
    (id : Nat) (m : CallbackMeta) (hm : cbs.lookup id = some m) :
    (out id = .success →
      (emit cfg out cbs).lookup id =
        some ⟨0, m.total_executions + 1, m.total_failures⟩) ∧
    (out id ≠ .success →
      ((cfg.remove_failing_callbacks = true ∧
          cfg.max_consecutive_failures ≤ m.consecutive_failures + 1) →
        (emit cfg out cbs).lookup id = none) ∧
      (¬(cfg.remove_failing_callbacks = true ∧
          cfg.max_consecutive_failures ≤ m.consecutive_failures + 1) →
        (emit cfg out cbs).lookup id =
          some ⟨m.consecutive_failures + 1, m.total_executions + 1,
            m.total_failures + 1⟩)) := by
  have hb : (cbs.map fun im => (im.1, bumpExec im.2)).lookup id = some (bumpExec m) := by
    rw [lookup_map_value bumpExec id cbs, hm]
    rfl
  have hkeys : (((cbs.map fun im => (im.1, bumpExec im.2)).map
      fun im => (im.1, out im.1)).map Prod.fst) = cbs.map Prod.fst := by
    simp [List.map_map, Function.comp]
  have hnd_res : ((((cbs.map fun im => (im.1, bumpExec im.2)).map
      fun im => (im.1, out im.1)).map Prod.fst)).Nodup := by
    rw [hkeys]; exact hnd
  have hmem_res : (id, out id) ∈ ((cbs.map fun im => (im.1, bumpExec im.2)).map
      fun im => (im.1, out im.1)) := by
    have hmem := lookup_some_mem hb
    simpa using List.mem_map_of_mem (fun im => (im.1, out im.1)) hmem
  obtain ⟨l1, l2, hsplit⟩ := List.append_of_mem hmem_res
  have hnd_mid : id ∉ l1.map Prod.fst ∧ id ∉ l2.map Prod.fst := by
    rw [hsplit, List.map_append, List.map_cons] at hnd_res
    have hmid := List.nodup_middle.mp hnd_res
    have hni := (List.nodup_cons.mp hmid).1
    rw [List.mem_append] at hni
    exact ⟨fun hh => hni (Or.inl hh), fun hh => hni (Or.inr hh)⟩
  have hfold := fold_processResult_at cfg l1 l2 id (out id)
    (cbs.map fun im => (im.1, bumpExec im.2)) (bumpExec m) hnd_mid.1 hnd_mid.2 hb
  rw [← hsplit] at hfold
  have hemit : emit cfg out cbs =
      (((cbs.map fun im => (im.1, bumpExec im.2)).map fun im => (im.1, out im.1)).foldl
        (processResult cfg) ((cbs.map fun im => (im.1, bumpExec im.2)), [])).1.filter
        fun im => decide (im.1 ∉
          (((cbs.map fun im => (im.1, bumpExec im.2)).map fun im => (im.1, out im.1)).foldl
            (processResult cfg) ((cbs.map fun im => (im.1, bumpExec im.2)), [])).2) := rfl
  have hlook : (emit cfg out cbs).lookup id =
      if id ∈ (((cbs.map fun im => (im.1, bumpExec im.2)).map fun im => (im.1, out im.1)).foldl
          (processResult cfg) ((cbs.map fun im => (im.1, bumpExec im.2)), [])).2
      then none
      else (((cbs.map fun im => (im.1, bumpExec im.2)).map fun im => (im.1, out im.1)).foldl
          (processResult cfg) ((cbs.map fun im => (im.1, bumpExec im.2)), [])).1.lookup id := by
    rw [hemit]
    exact lookup_filter_keys _ _ id
  constructor
  · intro hsucc
    rw [hlook]
    have hnomem : ¬ id ∈ (((cbs.map fun im => (im.1, bumpExec im.2)).map
        fun im => (im.1, out im.1)).foldl (processResult cfg)
        ((cbs.map fun im => (im.1, bumpExec im.2)), [])).2 := by
      intro hmem
      have hh := hfold.2.mp hmem
      rw [hsucc] at hh
      simp [shouldRemove] at hh
    rw [if_neg hnomem, hfold.1, hsucc]
    rfl
  · intro hfail
    have happ : applyOutcome (out id) (bumpExec m) =
        ⟨m.consecutive_failures + 1, m.total_executions + 1, m.total_failures + 1⟩ := by
      cases hout : out id with
      | success => exact absurd hout hfail
      | failure => rfl
      | timedOut => rfl
    have hsr : shouldRemove cfg (out id) (applyOutcome (out id) (bumpExec m)) =
        (cfg.remove_failing_callbacks &&
          decide (cfg.max_consecutive_failures ≤ m.consecutive_failures + 1)) := by
      rw [happ]
      cases hout : out id with
      | success => exact absurd hout hfail
      | failure => rfl
      | timedOut => rfl
    constructor
    · intro hcond
      rw [hlook, if_pos]
      exact hfold.2.mpr (by rw [hsr]; simp [hcond.1, hcond.2])
    · intro hcond
      rw [hlook, if_neg, hfold.1, happ]
      intro hmem
      apply hcond
      have hh := hfold.2.mp hmem
      rw [hsr] at hh
      simpa using hh

/-- Witness for emit_callback_lifecycle: with max_consecutive_failures = 2,
eviction enabled and an always-failing callback, the first emit (from
consecutive_failures 0) keeps the callback with consecutive_failures 1, and
the second emit (from consecutive_failures 1) removes it from the
registry — removed after the 2nd emit, exactly as the claim's scenario. -/
theorem emit_callback_lifecycle_witness :
    (emit ⟨true, 2⟩ (fun _ => .failure) [(0, ⟨0, 4, 2⟩)]).lookup 0 =
      some ⟨1, 5, 3⟩ ∧
    (emit ⟨true, 2⟩ (fun _ => .failure) [(0, ⟨1, 5, 3⟩)]).lookup 0 = none :=
  ⟨((emit_callback_lifecycle ⟨true, 2⟩ (fun _ => .failure) [(0, ⟨0, 4, 2⟩)]
      (by decide) 0 ⟨0, 4, 2⟩ (by decide)).2 (by decide)).2 (by decide),
    ((emit_callback_lifecycle ⟨true, 2⟩ (fun _ => .failure) [(0, ⟨1, 5, 3⟩)]
      (by decide) 0 ⟨1, 5, 3⟩ (by decide)).2 (by decide)).1 (by decide)⟩

/-- C8: the snapshot members are not invoked concurrently, each under its
own timeout.  The futures built in phase 1 are lazy and never spawned, and
the results loop (manager.rs lines 168-171) awaits them one at a time, so
the callbacks run sequentially inside the single timeout window whose
deadlines phase 1 already fixed — contradicting the code's own comment at
line 166, "Execute all callbacks concurrently (lock is released)".  With
callback durations 4s and 3s and callback_timeout_seconds = 5: under the
claim both callbacks complete, since each duration is below its own 5s
timeout; in the code the second callback starts only after the first
finishes at t = 4, is cut off at the shared deadline t = 5 after running
1s, and is reported timed out (so its failure counters are bumped and it
becomes evictable).  Emit's finish time at this input is 5s, so the
latency-bound part of the claim holds here — but only because later
callbacks' time budgets are eroded, not because the callbacks run
concurrently. -/
theorem emit_sequential_awaits_cut_short_later_callbacks :
    (emit_await_phase 5 0 [4, 3]).2 = [true, false] ∧
    spec_concurrent_outcomes 5 [4, 3] = [true, true] ∧
    (emit_await_phase 5 0 [4, 3]).2 ≠ spec_concurrent_outcomes 5 [4, 3] ∧
    (emit_await_phase 5 0 [4, 3]).1 = 5 := by
  exact ⟨by decide, by decide, by decide, by decide⟩

end SignalManager

end Storehaus
